import Mathlib

/-!
Verification development for the Medi-hub backend (Express + Firestore).

The JavaScript source is shallowly embedded: each Firestore collection
becomes a Lean list of structures, each controller becomes a pure function
from the database state (plus the request parameters and the current clock
instant in milliseconds) to a new state and a result.  Firestore
`FieldValue.increment` is modelled as plain integer addition,
`Timestamp.now()` / `Date.now()` as an explicit `now : Int` parameter, and
JavaScript numbers that carry fractional values (hours, scores) as
rationals.  HTTP error responses are mapped to the spec's error taxonomy:
404 = NotFoundError, 403 = AuthorizationError, 400/422 = ValidationError,
409 on request creation = ConflictError, 409 on respond/revoke =
StateError.
-/

namespace Medihub

/-- Lifecycle states of an access request, exactly the string enum
`pending | approved | denied | revoked | expired` used in
`access-requests.controller.js`. -/
inductive Status where
  | pending
  | approved
  | denied
  | revoked
  | expired
deriving DecidableEq, Repr

/-- Error taxonomy of the spec (§7), to which the controllers' HTTP
status codes are mapped. -/
inductive ApiError where
  | notFoundError
  | authorizationError
  | conflictError
  | stateError
  | validationError
deriving DecidableEq, Repr

/-- Requested mode of an access check: read or write. -/
inductive AccessMode where
  | read
  | write
deriving DecidableEq, Repr

/-- Embedding of an `access_requests` document as written by
`createAccessRequest` and mutated by respond/revoke/sweep.  Timestamps are
instants in milliseconds (`Int`); `none` models the JavaScript `null`. -/
structure AccessRequest where
  id : String
  doctorId : String
  patientId : String
  reason : String
  /-- access level string, `read` or `read_write` -/
  accessLevel : String
  requestedRecordTypes : List String
  expiryDays : Int
  status : Status
  isExpired : Bool
  requestedAt : Int
  respondedAt : Option Int
  expiresAt : Option Int
  revokedAt : Option Int
  note : Option String
deriving DecidableEq, Repr

/-- Embedding of a `patients` document, restricted to the fields the
modelled operations touch. -/
structure Patient where
  id : String
  activeCollaborators : Int
  totalRecords : Int
  totalVersions : Int
deriving DecidableEq, Repr

/-- Firestore query filter of `assertDoctorReadAccess`
(`records.controller.js`): doctor and patient match, `status == approved`,
`isExpired == false`.  Expiry is checked only through the stored flag;
`expiresAt` is not compared with the clock here. -/
def matchesReadQuery (doctorId patientId : String) (r : AccessRequest) : Bool :=
  r.doctorId == doctorId && r.patientId == patientId &&
    r.status == Status.approved && r.isExpired == false

/-- Firestore query filter of `assertDoctorWriteAccess`: additionally
requires `accessLevel == read_write`.  No record-type condition appears in
the write query. -/
def matchesWriteQuery (doctorId patientId : String) (r : AccessRequest) : Bool :=
  r.doctorId == doctorId && r.patientId == patientId &&
    r.status == Status.approved && r.accessLevel == "read_write" &&
    r.isExpired == false

/-- Embedding of `assertDoctorReadAccess(doctorId, patientId, recordType)`
from `records.controller.js` lines 393-417.  The query takes the first
matching document (`limit(1)`); if none exists a 403 is thrown; otherwise
a 403 is thrown when `recordType !== "all"` and the grant's
`requestedRecordTypes` contains neither `"all"` nor the requested type.
Note that a caller-requested `"all"` short-circuits the scope test. -/
def assertDoctorReadAccess (reqs : List AccessRequest)
    (doctorId patientId recordType : String) : Except ApiError Unit :=
  match reqs.find? (matchesReadQuery doctorId patientId) with
  | none => Except.error ApiError.authorizationError
  | some access =>
      if recordType != "all" &&
          !(access.requestedRecordTypes.contains "all") &&
          !(access.requestedRecordTypes.contains recordType) then
        Except.error ApiError.authorizationError
      else
        Except.ok ()

/-- Embedding of `assertDoctorWriteAccess(doctorId, patientId)` from
`records.controller.js` lines 419-435: succeeds exactly when the query
(approved, read_write, not flagged expired) finds a document.  There is no
scope check on the write path. -/
def assertDoctorWriteAccess (reqs : List AccessRequest)
    (doctorId patientId : String) : Except ApiError Unit :=
  match reqs.find? (matchesWriteQuery doctorId patientId) with
  | none => Except.error ApiError.authorizationError
  | some _ => Except.ok ()

/-- Combined access check as exercised by the record controllers: read
paths call `assertDoctorReadAccess` with the record's type (or `"all"`
for whole-history listings), the write path calls
`assertDoctorWriteAccess`. -/
def isAuthorized (reqs : List AccessRequest) (doctorId patientId recordType : String)
    (mode : AccessMode) : Except ApiError Unit :=
  match mode with
  | AccessMode.read => assertDoctorReadAccess reqs doctorId patientId recordType
  | AccessMode.write => assertDoctorWriteAccess reqs doctorId patientId

/-- Scope coverage as the claim words it: the grant contains `"all"`, or
it contains the specific type; a caller-requested `"all"` (meaning any) is
permitted only if the grant itself includes `"all"`. -/
def specScopeCovers (grantTypes : List String) (recordType : String) : Bool :=
  if recordType == "all" then grantTypes.contains "all"
  else grantTypes.contains "all" || grantTypes.contains recordType

/-- Modelled from the claim's own words (refinement reference, not from
the source): the check succeeds iff an approved grant for the pair exists
that is not expired at the instant `now` of the check, whose scope covers
the requested type, and whose access level is `read_write` when the mode
is write. -/
def specAuthorized (reqs : List AccessRequest) (doctorId patientId recordType : String)
    (mode : AccessMode) (now : Int) : Bool :=
  reqs.any fun r =>
    r.doctorId == doctorId && r.patientId == patientId &&
      r.status == Status.approved &&
      (match r.expiresAt with
       | some t => decide (now < t)
       | none => true) &&
      specScopeCovers r.requestedRecordTypes recordType &&
      (match mode with
       | AccessMode.read => true
       | AccessMode.write => r.accessLevel == "read_write")

/-- Relaxed scope test actually implemented on the read path: the caller
asking for `"all"` always passes, otherwise the grant must contain
`"all"` or the specific type. -/
def codeScopeCovers (grantTypes : List String) (recordType : String) : Bool :=
  recordType == "all" || grantTypes.contains "all" || grantTypes.contains recordType

/-- Uniqueness invariant of the spec (§3): at most one request per
(doctor, patient) pair is in a live state (`pending` or `approved`). -/
def activeForPair (doctorId patientId : String) (r : AccessRequest) : Bool :=
  r.doctorId == doctorId && r.patientId == patientId &&
    (r.status == Status.pending || r.status == Status.approved)

/-- Predicate: a list of access requests has at most one live request for
every (doctor, patient) pair. -/
def pairUnique (reqs : List AccessRequest) : Prop :=
  ∀ d p : String, (reqs.countP (activeForPair d p)) ≤ 1

/-- Aggregate statistics stored under `stats.` on a `doctors` document.
`none` models the JavaScript `null` of the nullable fields. -/
structure DoctorStats where
  totalCasesHandled : Int
  activeCases : Int
  totalRecordsUpdated : Int
  averageResponseTimeHours : Option ℚ
  recordAccuracyScore : Option Int
  lastActiveAt : Option Int
deriving DecidableEq, Repr

/-- Embedding of a `doctors` document, restricted to the fields the
modelled operations read or write.  `endorsementCounts` and
`contributionGraph` are Firestore map fields, embedded as association
lists from key to integer count. -/
structure Doctor where
  id : String
  displayName : String
  specialization : String
  licenseNumber : String
  phone : String
  isVerified : Bool
  conditionTags : List String
  endorsementCounts : List (String × Int)
  contributionGraph : List (String × Int)
  stats : DoctorStats
deriving DecidableEq, Repr

/-- Firestore `FieldValue.increment(delta)` on a dotted map key: adds to
the existing entry, or creates the entry holding `delta` when the key is
absent. -/
def incrEntry (m : List (String × Int)) (k : String) (delta : Int) :
    List (String × Int) :=
  match m with
  | [] => [(k, delta)]
  | (k0, v) :: rest =>
      if k0 == k then (k0, v + delta) :: rest
      else (k0, v) :: incrEntry rest k delta

/-- Value of a map field at a key, with the JavaScript `|| 0` default for
a missing entry. -/
def lookupEntry : List (String × Int) → String → Int
  | [], _ => 0
  | e :: rest, k => if e.1 == k then e.2 else lookupEntry rest k

/-- JavaScript `Math.round`: round half towards positive infinity. -/
def jsRound (q : ℚ) : Int := ⌊q + 1 / 2⌋

/-- The controllers' `parseFloat(x.toFixed(2))`, idealised over the
rationals: round to two decimal places. -/
def round2 (q : ℚ) : ℚ := ((jsRound (q * 100) : ℚ)) / 100

/-- JavaScript `v || dflt` on an optional integer: `undefined` and `0`
are falsy and give the default. -/
def jsOrInt (v : Option Int) (dflt : Int) : Int :=
  match v with
  | none => dflt
  | some x => if x = 0 then dflt else x

/-- JavaScript `v || dflt` on an optional string: `undefined` and the
empty string are falsy and give the default. -/
def jsOrStr (v : Option String) (dflt : String) : String :=
  match v with
  | none => dflt
  | some s => if s == "" then dflt else s

/-- JavaScript `v || null` on an optional string. -/
def jsOrNull (v : Option String) : Option String :=
  match v with
  | none => none
  | some s => if s == "" then none else some s

/-- Options bag of `updateDoctorStats(doctorId, options)` in
`doctor-stats.service.js`. -/
structure StatsOptions where
  newCase : Bool := false
  caseCompleted : Bool := false
  recordUpdated : Bool := false
  responseTimeHours : Option ℚ := none
  conditionTags : List String := []
deriving Repr

/-- Embedding of the body of `updateDoctorStats` applied to one doctor
document.  Every call stamps `lastActiveAt` and increments today's
`contributionGraph` entry; the option flags add the specific counter
increments; a supplied response time updates the rolling average, where
the divisor is the count read from the stored document (before this
call's own batched increments land), defaulted to 1 by `|| 1`. -/
def applyDoctorStats (d : Doctor) (opts : StatsOptions) (now : Int)
    (todayKey : String) : Doctor :=
  let s1 := { d.stats with lastActiveAt := some now }
  let graph := incrEntry d.contributionGraph todayKey 1
  let s2 :=
    if opts.newCase then
      { s1 with totalCasesHandled := s1.totalCasesHandled + 1,
                activeCases := s1.activeCases + 1 }
    else s1
  let s3 :=
    if opts.caseCompleted then { s2 with activeCases := s2.activeCases - 1 }
    else s2
  let s4 :=
    if opts.recordUpdated then
      { s3 with totalRecordsUpdated := s3.totalRecordsUpdated + 1 }
    else s3
  let s5 :=
    match opts.responseTimeHours with
    | none => s4
    | some rt =>
        let totalCases : Int :=
          if d.stats.totalCasesHandled = 0 then 1 else d.stats.totalCasesHandled
        match d.stats.averageResponseTimeHours with
        | none => { s4 with averageResponseTimeHours := some rt }
        | some avg =>
            let newAvg := round2 ((avg * ((totalCases : ℚ) - 1) + rt) / (totalCases : ℚ))
            { s4 with averageResponseTimeHours := some newAvg }
  let tags :=
    opts.conditionTags.foldl
      (fun acc t => if acc.contains t then acc else acc ++ [t]) d.conditionTags
  { d with stats := s5, contributionGraph := graph, conditionTags := tags }

/-- Lifting of `updateDoctorStats` to the `doctors` collection: the
update targets the document with the given id; if no such document exists
the thrown Firestore error is swallowed by the service's try/catch, so
the collection is unchanged. -/
def updateDoctorStats (doctors : List Doctor) (doctorId : String)
    (opts : StatsOptions) (now : Int) (todayKey : String) : List Doctor :=
  doctors.map fun d =>
    if d.id == doctorId then applyDoctorStats d opts now todayKey else d

/-- Combined database state touched by the access-request controllers. -/
structure AccessDB where
  requests : List AccessRequest
  patients : List Patient
  doctors : List Doctor
deriving DecidableEq, Repr

/-- Embedding of `createAccessRequest` (`access-requests.controller.js`):
404 when the patient document does not exist, 409 (ConflictError) when a
pending or approved request already exists for the (doctor, patient)
pair, otherwise a fresh `pending` request with `expiryDays || 30`,
`accessLevel || "read"` and unset expiry is inserted. -/
def createAccessRequest (db : AccessDB) (requestId doctorId patientId reason : String)
    (accessLevel : Option String) (requestedRecordTypes : List String)
    (expiryDays : Option Int) (now : Int) : AccessDB × Except ApiError AccessRequest :=
  if !(db.patients.any (fun p => p.id == patientId)) then
    (db, Except.error ApiError.notFoundError)
  else if db.requests.any (activeForPair doctorId patientId) then
    (db, Except.error ApiError.conflictError)
  else
    let req : AccessRequest := {
      id := requestId
      doctorId := doctorId
      patientId := patientId
      reason := reason
      accessLevel := jsOrStr accessLevel "read"
      requestedRecordTypes := requestedRecordTypes
      expiryDays := jsOrInt expiryDays 30
      status := Status.pending
      isExpired := false
      requestedAt := now
      respondedAt := none
      expiresAt := none
      revokedAt := none
      note := none }
    ({ db with requests := db.requests ++ [req] }, Except.ok req)

/-- Embedding of `respondToAccessRequest`: 404 for an unknown id, 403
when the responder is not the target patient, 409 (StateError) when the
request is not pending.  On approve the expiry instant
`now + expiryDays * 86400000` ms is set, the doctor's stats receive a
`newCase` update and the patient's `activeCollaborators` is incremented;
on deny only the request document changes (status, respondedAt, note). -/
def respondToAccessRequest (db : AccessDB) (patientId requestId : String)
    (approved : Bool) (note : Option String) (now : Int) (todayKey : String) :
    AccessDB × Except ApiError Unit :=
  match db.requests.find? (fun r => r.id == requestId) with
  | none => (db, Except.error ApiError.notFoundError)
  | some request =>
      if request.patientId != patientId then
        (db, Except.error ApiError.authorizationError)
      else if request.status != Status.pending then
        (db, Except.error ApiError.stateError)
      else
        let newStatus := if approved then Status.approved else Status.denied
        let applyUpdate := fun (r : AccessRequest) =>
          let r1 := { r with status := newStatus, respondedAt := some now,
                             note := jsOrNull note }
          if approved then
            { r1 with expiresAt := some (now + request.expiryDays * 86400000) }
          else r1
        let requests := db.requests.map fun r =>
          if r.id == requestId then applyUpdate r else r
        let doctors :=
          if approved then
            updateDoctorStats db.doctors request.doctorId { newCase := true } now todayKey
          else db.doctors
        let patients :=
          if approved then
            db.patients.map fun p =>
              if p.id == patientId then
                { p with activeCollaborators := p.activeCollaborators + 1 }
              else p
          else db.patients
        ({ requests := requests, patients := patients, doctors := doctors },
          Except.ok ())

/-- Embedding of `revokeAccess`: 404 for an unknown id, 403 when the
caller is not the target patient, 409 (StateError) unless the request is
approved; on success the request becomes `revoked` with `isExpired :=
true` and the patient's `activeCollaborators` is decremented. -/
def revokeAccess (db : AccessDB) (patientId requestId : String) (now : Int) :
    AccessDB × Except ApiError Unit :=
  match db.requests.find? (fun r => r.id == requestId) with
  | none => (db, Except.error ApiError.notFoundError)
  | some request =>
      if request.patientId != patientId then
        (db, Except.error ApiError.authorizationError)
      else if request.status != Status.approved then
        (db, Except.error ApiError.stateError)
      else
        let requests := db.requests.map fun r =>
          if r.id == requestId then
            { r with status := Status.revoked, revokedAt := some now,
                     isExpired := true }
          else r
        let patients := db.patients.map fun p =>
          if p.id == patientId then
            { p with activeCollaborators := p.activeCollaborators - 1 }
          else p
        ({ db with requests := requests, patients := patients }, Except.ok ())

/-- Firestore query filter of the expiry sweep
(`expireStaleAccessRequests` in `notification.service.js`): approved, not
yet flagged expired, and `expiresAt <= now`.  A document whose
`expiresAt` is null is excluded from the inequality query, as Firestore
does. -/
def staleQuery (now : Int) (r : AccessRequest) : Bool :=
  r.status == Status.approved && r.isExpired == false &&
    (match r.expiresAt with
     | some t => decide (t ≤ now)
     | none => false)

/-- Embedding of the expiry sweep: every matching request is batch
updated to `status := expired, isExpired := true`. -/
def expireStaleAccessRequests (reqs : List AccessRequest) (now : Int) :
    List AccessRequest :=
  reqs.map fun r =>
    if staleQuery now r then
      { r with status := Status.expired, isExpired := true }
    else r

/-- Embedding of a `records` document (`records.controller.js`),
restricted to the fields the modelled operations read or write. -/
structure MedRecord where
  id : String
  patientId : String
  title : String
  recordType : String
  tags : List String
  currentVersion : Int
  currentVersionId : String
  totalVersions : Int
  isArchived : Bool
  createdBy : String
  createdAt : Int
  updatedAt : Int
deriving DecidableEq, Repr

/-- Embedding of a `record_versions` subcollection document. -/
structure RecordVersion where
  id : String
  recordId : String
  patientId : String
  versionNumber : Int
  commitMessage : String
  committedBy : String
  committedByRole : String
  fileName : String
  fileSize : Int
  mimeType : String
  changeType : String
  createdAt : Int
deriving DecidableEq, Repr

/-- Embedding of a `commits` collection document, the flattened audit
projection of a version. -/
structure Commit where
  id : String
  recordId : String
  versionId : String
  patientId : String
  committedBy : String
  committedByRole : String
  commitMessage : String
  changeType : String
  recordType : String
  createdAt : Int
deriving DecidableEq, Repr

/-- Metadata of an uploaded multipart file; `none` at the call site
models a request without a file. -/
structure FileInfo where
  originalname : String
  size : Int
  mimetype : String
deriving DecidableEq, Repr

/-- Combined database state touched by the record controllers. -/
structure RecordsDB where
  records : List MedRecord
  versions : List RecordVersion
  commits : List Commit
  patients : List Patient
  doctors : List Doctor
  requests : List AccessRequest
deriving DecidableEq, Repr

/-- Embedding of `uploadRecord` (`records.controller.js` lines 49-116):
400 without a file; otherwise a single batch writes the record document
with `currentVersion = 1` and `totalVersions = 1`, the version document
with `versionNumber = 1` and `changeType = "initial_upload"`, the commit
document, and the incremented patient aggregates.  Blob storage and the
signed download URL are external collaborators and are omitted. -/
def uploadRecord (db : RecordsDB) (patientId recordId versionId commitId : String)
    (title recordType : String) (tags : List String) (commitMessage : String)
    (file : Option FileInfo) (now : Int) : RecordsDB × Except ApiError Unit :=
  match file with
  | none => (db, Except.error ApiError.validationError)
  | some f =>
      let record : MedRecord := {
        id := recordId
        patientId := patientId
        title := title
        recordType := recordType
        tags := tags
        currentVersion := 1
        currentVersionId := versionId
        totalVersions := 1
        isArchived := false
        createdBy := patientId
        createdAt := now
        updatedAt := now }
      let version : RecordVersion := {
        id := versionId
        recordId := recordId
        patientId := patientId
        versionNumber := 1
        commitMessage := commitMessage
        committedBy := patientId
        committedByRole := "patient"
        fileName := f.originalname
        fileSize := f.size
        mimeType := f.mimetype
        changeType := "initial_upload"
        createdAt := now }
      let commit : Commit := {
        id := commitId
        recordId := recordId
        versionId := versionId
        patientId := patientId
        committedBy := patientId
        committedByRole := "patient"
        commitMessage := commitMessage
        changeType := "initial_upload"
        recordType := recordType
        createdAt := now }
      let patients := db.patients.map fun p =>
        if p.id == patientId then
          { p with totalRecords := p.totalRecords + 1,
                   totalVersions := p.totalVersions + 1 }
        else p
      ({ db with records := db.records ++ [record],
                 versions := db.versions ++ [version],
                 commits := db.commits ++ [commit],
                 patients := patients }, Except.ok ())

/-- Embedding of `addRecordVersion` (`records.controller.js` lines
141-250): 400 without a file, 404 for an unknown record, 403 for a
foreign patient, the write-access guard for a doctor; on success one
batch sets `currentVersion` to the incremented number, appends the
version (with that number and `changeType = "update"`) and its commit,
and bumps the patient aggregate; a doctor author then gets a
`recordUpdated` stats update. -/
def addRecordVersion (db : RecordsDB) (callerId callerRole : String)
    (recordId versionId commitId commitMessage : String)
    (file : Option FileInfo) (now : Int) (todayKey : String) :
    RecordsDB × Except ApiError Int :=
  match file with
  | none => (db, Except.error ApiError.validationError)
  | some f =>
      match db.records.find? (fun r => r.id == recordId) with
      | none => (db, Except.error ApiError.notFoundError)
      | some record =>
          if callerRole == "patient" && record.patientId != callerId then
            (db, Except.error ApiError.authorizationError)
          else
            match (if callerRole == "doctor" then
                     assertDoctorWriteAccess db.requests callerId record.patientId
                   else Except.ok ()) with
            | Except.error e => (db, Except.error e)
            | Except.ok _ =>
                let newVersionNumber := record.currentVersion + 1
                let version : RecordVersion := {
                  id := versionId
                  recordId := recordId
                  patientId := record.patientId
                  versionNumber := newVersionNumber
                  commitMessage := commitMessage
                  committedBy := callerId
                  committedByRole := callerRole
                  fileName := f.originalname
                  fileSize := f.size
                  mimeType := f.mimetype
                  changeType := "update"
                  createdAt := now }
                let commit : Commit := {
                  id := commitId
                  recordId := recordId
                  versionId := versionId
                  patientId := record.patientId
                  committedBy := callerId
                  committedByRole := callerRole
                  commitMessage := commitMessage
                  changeType := "update"
                  recordType := record.recordType
                  createdAt := now }
                let records := db.records.map fun r =>
                  if r.id == recordId then
                    { r with currentVersion := newVersionNumber,
                             currentVersionId := versionId,
                             totalVersions := r.totalVersions + 1,
                             updatedAt := now }
                  else r
                let patients := db.patients.map fun p =>
                  if p.id == record.patientId then
                    { p with totalVersions := p.totalVersions + 1 }
                  else p
                let doctors :=
                  if callerRole == "doctor" then
                    updateDoctorStats db.doctors callerId { recordUpdated := true } now todayKey
                  else db.doctors
                ({ records := records
                   versions := db.versions ++ [version]
                   commits := db.commits ++ [commit]
                   patients := patients
                   doctors := doctors
                   requests := db.requests }, Except.ok newVersionNumber)

/-- Embedding of an `endorsements` document. -/
structure Endorsement where
  id : String
  endorserId : String
  endorserName : String
  targetDoctorId : String
  skill : String
  note : Option String
  createdAt : Int
deriving DecidableEq, Repr

/-- Embedding of `endorseDoctor` (`doctors.controller.js`): 400 for a
self-endorsement or an unverified target, 404 for an unknown doctor, 409
when the endorser already endorsed the same skill; on success one batch
inserts the endorsement document and increments
`endorsementCounts[skill]` on the target doctor. -/
def endorseDoctor (doctors : List Doctor) (endorsements : List Endorsement)
    (endorserId endorserName targetDoctorId skill : String)
    (note : Option String) (endorsementId : String) (now : Int) :
    (List Doctor × List Endorsement) × Except ApiError Endorsement :=
  if endorserId == targetDoctorId then
    ((doctors, endorsements), Except.error ApiError.validationError)
  else
    match doctors.find? (fun d => d.id == targetDoctorId) with
    | none => ((doctors, endorsements), Except.error ApiError.notFoundError)
    | some target =>
        if !target.isVerified then
          ((doctors, endorsements), Except.error ApiError.validationError)
        else if endorsements.any (fun e =>
            e.endorserId == endorserId && e.targetDoctorId == targetDoctorId &&
              e.skill == skill) then
          ((doctors, endorsements), Except.error ApiError.conflictError)
        else
          let e : Endorsement := {
            id := endorsementId
            endorserId := endorserId
            endorserName := endorserName
            targetDoctorId := targetDoctorId
            skill := skill
            note := jsOrNull note
            createdAt := now }
          let doctors2 := doctors.map fun d =>
            if d.id == targetDoctorId then
              { d with endorsementCounts := incrEntry d.endorsementCounts skill 1 }
            else d
          ((doctors2, endorsements ++ [e]), Except.ok e)

/-- Sum of all endorsement counts of a doctor
(`Object.values(endorsementCounts || {}).reduce((a, b) => a + b, 0)`). -/
def sumEndorsements (m : List (String × Int)) : Int :=
  (m.map (fun e => e.2)).sum

/-- Embedding of the body of `recalculateDoctorAccuracyScore`
(`notification.service.js` lines 98-118) on one doctor document: when
`totalCasesHandled` is 0 nothing is written (early return), otherwise
`stats.recordAccuracyScore` is set to
`min(100, round((totalEndorsements / totalCases) * 50 + 50))`. -/
def recalcScore (d : Doctor) : Doctor :=
  let totalEndorsements := sumEndorsements d.endorsementCounts
  let totalCases := d.stats.totalCasesHandled
  if totalCases = 0 then d
  else
    let score := min 100 (jsRound ((totalEndorsements : ℚ) / (totalCases : ℚ) * 50 + 50))
    { d with stats := { d.stats with recordAccuracyScore := some score } }

/-- Lifting of `recalculateDoctorAccuracyScore` to the collection; a
missing doctor document is an early return. -/
def recalculateDoctorAccuracyScore (doctors : List Doctor) (doctorId : String) :
    List Doctor :=
  doctors.map fun d => if d.id == doctorId then recalcScore d else d

/-- Embedding of the `onEndorsementCreated` Firestore trigger
(`functions/index.js` lines 40-63): after an endorsement document is
created, the target doctor's score is recomputed with divisor
`totalCasesHandled || 1` and written unconditionally — there is no skip
when the case count is 0. -/
def onEndorsementCreated (doctors : List Doctor) (e : Endorsement) : List Doctor :=
  doctors.map fun d =>
    if d.id == e.targetDoctorId then
      let totalEndorsements := sumEndorsements d.endorsementCounts
      let totalCases : Int :=
        if d.stats.totalCasesHandled = 0 then 1 else d.stats.totalCasesHandled
      let score := min 100 (jsRound ((totalEndorsements : ℚ) / (totalCases : ℚ) * 50 + 50))
      { d with stats := { d.stats with recordAccuracyScore := some score } }
    else d

/-- Public projection of a doctor document: every field except the
destructured-away `licenseNumber` and `phone`
(`const \x7b licenseNumber, phone, ...publicData \x7d = data`). -/
structure PublicDoctor where
  id : String
  displayName : String
  specialization : String
  isVerified : Bool
  conditionTags : List String
  endorsementCounts : List (String × Int)
  contributionGraph : List (String × Int)
  stats : DoctorStats
deriving DecidableEq, Repr

/-- Drops the sensitive `licenseNumber` and `phone` fields, keeping the
rest of the document unchanged. -/
def stripSensitive (d : Doctor) : PublicDoctor := {
  id := d.id
  displayName := d.displayName
  specialization := d.specialization
  isVerified := d.isVerified
  conditionTags := d.conditionTags
  endorsementCounts := d.endorsementCounts
  contributionGraph := d.contributionGraph
  stats := d.stats }

/-- Query parameters of `discoverDoctors` after parsing
(`pageLimit = min(parseInt(limit), 50)`, `offset = (page-1)*pageLimit`). -/
structure DiscoverQuery where
  specialization : Option String := none
  conditionTag : Option String := none
  minCases : Option Int := none
  sortBy : String := "totalCasesHandled"
  pageLimit : Int := 20
  page : Int := 1
deriving Repr

/-- Descending sort key `a.stats[sortBy] ?? 0`: a dynamic property read
that yields the named statistic, or 0 for a null score or an unknown
name. -/
def sortKeyDesc (sortBy : String) (s : DoctorStats) : ℚ :=
  if sortBy == "totalCasesHandled" then (s.totalCasesHandled : ℚ)
  else if sortBy == "recordAccuracyScore" then
    match s.recordAccuracyScore with
    | some v => (v : ℚ)
    | none => 0
  else 0

/-- Comparator of the in-memory sort in `discoverDoctors`: ascending by
response time with `null` treated as infinity, otherwise descending by
the selected statistic. -/
def discoverLe (sortBy : String) (a b : PublicDoctor) : Bool :=
  if sortBy == "averageResponseTimeHours" then
    match a.stats.averageResponseTimeHours, b.stats.averageResponseTimeHours with
    | some x, some y => decide (x ≤ y)
    | some _, none => true
    | none, some _ => false
    | none, none => true
  else decide (sortKeyDesc sortBy b.stats ≤ sortKeyDesc sortBy a.stats)

/-- Stable insertion placing an element after all elements it does not
strictly precede, modelling the engine's stable comparator sort. -/
def insertStable (le : α → α → Bool) (x : α) : List α → List α
  | [] => [x]
  | y :: ys =>
      if le x y && !(le y x) then x :: y :: ys
      else y :: insertStable le x ys

/-- Stable sort by a boolean comparator. -/
def sortStable (le : α → α → Bool) : List α → List α
  | [] => []
  | x :: xs => insertStable le x (sortStable le xs)

/-- Embedding of `discoverDoctors` (`doctors.controller.js`): the
Firestore query keeps verified doctors matching the optional
specialization and condition-tag filters; each result is stripped of
`licenseNumber` and `phone`; the `minCases` filter, the comparator sort
and the pagination slice then run on the stripped data. -/
def discoverDoctors (doctors : List Doctor) (q : DiscoverQuery) :
    List PublicDoctor :=
  let filtered := doctors.filter fun d =>
    d.isVerified &&
      (match q.specialization with
       | none => true
       | some s => d.specialization == s) &&
      (match q.conditionTag with
       | none => true
       | some t => d.conditionTags.contains t)
  let pub := filtered.map stripSensitive
  let pub2 :=
    match q.minCases with
    | none => pub
    | some m => pub.filter fun d => decide (m ≤ d.stats.totalCasesHandled)
  let sorted := sortStable (discoverLe q.sortBy) pub2
  let pageLimit := min q.pageLimit 50
  let offset := (q.page - 1) * pageLimit
  (sorted.drop offset.toNat).take pageLimit.toNat

/-- Endorsement as included in a profile response: id, skill, note,
endorser name and timestamp only. -/
structure PublicEndorsement where
  id : String
  skill : String
  note : Option String
  endorserName : String
  createdAt : Int
deriving DecidableEq, Repr

/-- Response payload of `getDoctorProfile`. -/
structure ProfileResponse where
  doctor : PublicDoctor
  endorsements : List PublicEndorsement
  contributionGraph : List (String × Int)
  conditionTags : List String
deriving DecidableEq, Repr

/-- Embedding of `getDoctorProfile` (`doctors.controller.js`): 404 for an
unknown doctor; otherwise the response carries the stripped profile, the
20 most recent endorsements of that doctor projected to their public
fields, and the doctor's contribution graph and condition tags. -/
def getDoctorProfile (doctors : List Doctor) (endorsements : List Endorsement)
    (doctorId : String) : Except ApiError ProfileResponse :=
  match doctors.find? (fun d => d.id == doctorId) with
  | none => Except.error ApiError.notFoundError
  | some doctor =>
      let mine := endorsements.filter fun e => e.targetDoctorId == doctorId
      let recent :=
        (sortStable (fun a b => decide (b.createdAt ≤ a.createdAt)) mine).take 20
      let pubEs := recent.map fun e =>
        ({ id := e.id, skill := e.skill, note := e.note,
           endorserName := e.endorserName, createdAt := e.createdAt } :
          PublicEndorsement)
      Except.ok {
        doctor := stripSensitive doctor
        endorsements := pubEs
        contributionGraph := doctor.contributionGraph
        conditionTags := doctor.conditionTags }

/-- Two doctor documents agree on every field other than the sensitive
`licenseNumber` and `phone`. -/
def agreeExceptSensitive (d1 d2 : Doctor) : Prop :=
  d1.id = d2.id ∧ d1.displayName = d2.displayName ∧
    d1.specialization = d2.specialization ∧ d1.isVerified = d2.isVerified ∧
    d1.conditionTags = d2.conditionTags ∧
    d1.endorsementCounts = d2.endorsementCounts ∧
    d1.contributionGraph = d2.contributionGraph ∧ d1.stats = d2.stats

section Helpers

variable {α : Type}

/-- In a list whose count of elements satisfying `p` is at most one, two
members satisfying `p` coincide. -/
lemma countP_le_one_unique {p : α → Bool} {a b : α} :
    ∀ {l : List α}, l.countP p ≤ 1 → a ∈ l → b ∈ l →
      p a = true → p b = true → a = b := by
  intro l
  induction l with
  | nil => intro _ ha; cases ha
  | cons x xs ih =>
      intro h ha hb hpa hpb
      rcases List.mem_cons.mp ha with rfl | ha'
      · rcases List.mem_cons.mp hb with rfl | hb'
        · rfl
        · exfalso
          have h1 : 0 < xs.countP p := List.countP_pos_iff.mpr ⟨b, hb', hpb⟩
          have h2 : (a :: xs).countP p = xs.countP p + 1 := by
            simp [List.countP_cons, hpa]
          omega
      · rcases List.mem_cons.mp hb with rfl | hb'
        · exfalso
          have h1 : 0 < xs.countP p := List.countP_pos_iff.mpr ⟨a, ha', hpa⟩
          have h2 : (b :: xs).countP p = xs.countP p + 1 := by
            simp [List.countP_cons, hpb]
          omega
        · have hxs : xs.countP p ≤ 1 := by
            have h2 := List.countP_cons (p := p) x xs
            have h3 : (0 : Nat) ≤ if p x then 1 else 0 := by positivity
            omega
          exact ih hxs ha' hb' hpa hpb

/-- Mapping a function that never turns a non-`p` element into a `p`
element cannot raise the count of `p`. -/
lemma countP_map_le_of_imp {l : List α} {g : α → α} {p : α → Bool}
    (h : ∀ a ∈ l, p (g a) = true → p a = true) :
    (l.map g).countP p ≤ l.countP p := by
  rw [List.countP_map]
  exact List.countP_mono_left fun a ha hpa => h a ha hpa

/-- Incrementing a map entry adds the delta to the value read back at
that key. -/
lemma lookupEntry_incrEntry (m : List (String × Int)) (k : String) (delta : Int) :
    lookupEntry (incrEntry m k delta) k = lookupEntry m k + delta := by
  induction m with
  | nil => simp [incrEntry, lookupEntry]
  | cons e rest ih =>
      obtain ⟨k0, v⟩ := e
      by_cases hk : k0 = k
      · subst hk
        simp [incrEntry, lookupEntry]
      · have hbeq : (k0 == k) = false := beq_false_of_ne hk
        simp [incrEntry, lookupEntry, hbeq]
        exact ih

/-- Incrementing one key leaves the value at every other key unchanged. -/
lemma lookupEntry_incrEntry_ne (m : List (String × Int)) (k k2 : String)
    (delta : Int) (hne : k ≠ k2) :
    lookupEntry (incrEntry m k delta) k2 = lookupEntry m k2 := by
  induction m with
  | nil => simp [incrEntry, lookupEntry, beq_false_of_ne hne]
  | cons e rest ih =>
      obtain ⟨k0, v⟩ := e
      by_cases hk : k0 = k
      · subst hk
        have hbeq2 : (k0 == k2) = false := beq_false_of_ne hne
        simp [incrEntry, lookupEntry, hbeq2]
      · have hbeq : (k0 == k) = false := beq_false_of_ne hk
        by_cases hk2 : k0 = k2
        · subst hk2
          simp [incrEntry, lookupEntry, hbeq]
        · have hbeq2 : (k0 == k2) = false := beq_false_of_ne hk2
          simp [incrEntry, lookupEntry, hbeq, hbeq2]
          exact ih

end Helpers

deriving instance DecidableEq for Except

/-- Approved, unexpired read-write grant of doctor `d1` on patient `p1`,
scoped to lab reports only, expiring at instant 100. -/
def cxGrant : AccessRequest := {
  id := "r1"
  doctorId := "d1"
  patientId := "p1"
  reason := "care"
  accessLevel := "read_write"
  requestedRecordTypes := ["lab_report"]
  expiryDays := 30
  status := Status.approved
  isExpired := false
  requestedAt := 0
  respondedAt := some 0
  expiresAt := some 100
  revokedAt := none
  note := none }

/-- C1: the claimed if-and-only-if characterisation of the access check
fails on the code in three ways, each exhibited on the concrete grant
`cxGrant` (scoped to `lab_report` only, expiring at instant 100):
a write to an `xray` record is allowed although the grant's scope does
not cover it; a read with caller-requested type `all` is allowed although
the grant does not include `all`; and a read at instant 200, after the
expiry instant but before any sweep, is still allowed because only the
stored `isExpired` flag is consulted. -/
theorem c1_access_check_counterexample :
    (isAuthorized [cxGrant] "d1" "p1" "xray" AccessMode.write = Except.ok () ∧
      specAuthorized [cxGrant] "d1" "p1" "xray" AccessMode.write 0 = false) ∧
    (isAuthorized [cxGrant] "d1" "p1" "all" AccessMode.read = Except.ok () ∧
      specAuthorized [cxGrant] "d1" "p1" "all" AccessMode.read 0 = false) ∧
    (isAuthorized [cxGrant] "d1" "p1" "lab_report" AccessMode.read = Except.ok () ∧
      specAuthorized [cxGrant] "d1" "p1" "lab_report" AccessMode.read 200 = false) := by
  decide

/-- Condition of the read-path scope guard, rewritten as the negation of
the relaxed coverage test it implements. -/
lemma readScopeCond_eq (g : List String) (t : String) :
    (t != "all" && !(g.contains "all") && !(g.contains t)) =
      !(codeScopeCovers g t) := by
  cases h1 : (t == "all") <;> cases h2 : (g.contains "all") <;>
    cases h3 : (g.contains t) <;>
      simp only [codeScopeCovers, bne, h1, h2, h3] <;> rfl

/-- Splitting of the read-query filter into its field conditions. -/
lemma matchesReadQuery_iff (d p : String) (r : AccessRequest) :
    matchesReadQuery d p r = true ↔
      r.doctorId = d ∧ r.patientId = p ∧ r.status = Status.approved ∧
        r.isExpired = false := by
  simp [matchesReadQuery, and_assoc]

/-- Splitting of the write-query filter into its field conditions. -/
lemma matchesWriteQuery_iff (d p : String) (r : AccessRequest) :
    matchesWriteQuery d p r = true ↔
      r.doctorId = d ∧ r.patientId = p ∧ r.status = Status.approved ∧
        r.accessLevel = "read_write" ∧ r.isExpired = false := by
  simp [matchesWriteQuery, and_assoc]

/-- A request matching the read query is live for its pair. -/
lemma activeForPair_of_read {d p : String} {r : AccessRequest}
    (h : matchesReadQuery d p r = true) : activeForPair d p r = true := by
  rw [matchesReadQuery_iff] at h
  simp [activeForPair, h.1, h.2.1, h.2.2.1]

/-- A request matching the write query is live for its pair. -/
lemma activeForPair_of_write {d p : String} {r : AccessRequest}
    (h : matchesWriteQuery d p r = true) : activeForPair d p r = true := by
  rw [matchesWriteQuery_iff] at h
  simp [activeForPair, h.1, h.2.1, h.2.2.1]

/-- An approved request is live for its pair. -/
lemma activeForPair_of_fields {d p : String} {r : AccessRequest}
    (h1 : r.doctorId = d) (h2 : r.patientId = p)
    (h3 : r.status = Status.approved) : activeForPair d p r = true := by
  simp [activeForPair, h1, h2, h3]

/-- A one-element request list trivially satisfies the pair-uniqueness
invariant. -/
lemma pairUnique_singleton (r : AccessRequest) : pairUnique [r] := by
  intro d p
  rw [List.countP_singleton]
  split <;> simp

/-- C1 (amended): under the pair-uniqueness invariant, the access check
succeeds if and only if a request for the pair exists with status
approved and `isExpired = false` (expiry is enforced only through the
stored flag, not re-checked against the clock), whose scope covers the
requested type in the relaxed sense of `codeScopeCovers` (a
caller-requested `all` is always permitted) when the mode is read, and
whose access level is `read_write` when the mode is write (writes have no
scope condition); and every denial is an AuthorizationError. -/
theorem c1_access_check_amended (reqs : List AccessRequest)
    (doctorId patientId recordType : String) (mode : AccessMode)
    (huniq : pairUnique reqs) :
    (isAuthorized reqs doctorId patientId recordType mode = Except.ok () ↔
      ∃ r ∈ reqs, r.doctorId = doctorId ∧ r.patientId = patientId ∧
        r.status = Status.approved ∧ r.isExpired = false ∧
        (mode = AccessMode.read →
          codeScopeCovers r.requestedRecordTypes recordType = true) ∧
        (mode = AccessMode.write → r.accessLevel = "read_write")) ∧
    (isAuthorized reqs doctorId patientId recordType mode = Except.ok () ∨
      isAuthorized reqs doctorId patientId recordType mode =
        Except.error ApiError.authorizationError) := by
  constructor
  · cases mode
    case read =>
      simp only [isAuthorized, assertDoctorReadAccess]
      cases hfind : reqs.find? (matchesReadQuery doctorId patientId) with
      | none =>
          constructor
          · intro hok
            exact absurd hok (by simp)
          · rintro ⟨r, hmem, h1, h2, h3, h4, -, -⟩
            have hr : matchesReadQuery doctorId patientId r = true :=
              (matchesReadQuery_iff _ _ _).mpr ⟨h1, h2, h3, h4⟩
            rw [List.find?_eq_none] at hfind
            exact absurd hr (by simpa using hfind r hmem)
      | some a =>
          have hmem := List.mem_of_find?_eq_some hfind
          have haq := List.find?_some hfind
          have hq := (matchesReadQuery_iff _ _ _).mp haq
          constructor
          · intro hok
            simp only [readScopeCond_eq] at hok
            cases hcov : codeScopeCovers a.requestedRecordTypes recordType with
            | false => rw [hcov] at hok; exact absurd hok (by simp)
            | true =>
                exact ⟨a, hmem, hq.1, hq.2.1, hq.2.2.1, hq.2.2.2,
                  fun _ => hcov, fun h => absurd h (by simp)⟩
          · rintro ⟨r, hmem2, h1, h2, h3, h4, hscope, -⟩
            have hcov := hscope (by trivial)
            have hra : a = r :=
              countP_le_one_unique (huniq doctorId patientId) hmem hmem2
                (activeForPair_of_read haq)
                (activeForPair_of_fields h1 h2 h3)
            subst hra
            simp [readScopeCond_eq, hcov]
            intro hne hnall
            simp [codeScopeCovers, hne, hnall] at hcov
            exact hcov
    case write =>
      simp only [isAuthorized, assertDoctorWriteAccess]
      cases hfind : reqs.find? (matchesWriteQuery doctorId patientId) with
      | none =>
          constructor
          · intro hok
            exact absurd hok (by simp)
          · rintro ⟨r, hmem, h1, h2, h3, h4, -, hlvl⟩
            have hr : matchesWriteQuery doctorId patientId r = true :=
              (matchesWriteQuery_iff _ _ _).mpr ⟨h1, h2, h3, hlvl (by trivial), h4⟩
            rw [List.find?_eq_none] at hfind
            exact absurd hr (by simpa using hfind r hmem)
      | some a =>
          have hmem := List.mem_of_find?_eq_some hfind
          have hq := (matchesWriteQuery_iff _ _ _).mp (List.find?_some hfind)
          constructor
          · intro _
            exact ⟨a, hmem, hq.1, hq.2.1, hq.2.2.1, hq.2.2.2.2,
              fun h => absurd h (by simp), fun _ => hq.2.2.2.1⟩
          · intro _
            rfl
  · cases mode
    case read =>
      simp only [isAuthorized, assertDoctorReadAccess]
      cases hfind : reqs.find? (matchesReadQuery doctorId patientId) with
      | none => right; rfl
      | some a =>
          simp only [readScopeCond_eq]
          cases hcov : codeScopeCovers a.requestedRecordTypes recordType <;>
            simp [hcov]
    case write =>
      simp only [isAuthorized, assertDoctorWriteAccess]
      cases hfind : reqs.find? (matchesWriteQuery doctorId patientId) with
      | none => right; rfl
      | some a => left; rfl

/-- Closed instance of `c1_access_check_amended`: on the singleton grant
`cxGrant` the write check succeeds, via the amended characterisation. -/
theorem c1_access_check_amended_witness :
    isAuthorized [cxGrant] "d1" "p1" "lab_report" AccessMode.write = Except.ok () :=
  (c1_access_check_amended [cxGrant] "d1" "p1" "lab_report" AccessMode.write
      (pairUnique_singleton cxGrant)).1.mpr
    ⟨cxGrant, List.mem_singleton.mpr rfl, by decide, by decide, by decide,
      by decide, fun h => absurd h (by decide), fun _ => by decide⟩

/-- Pending read request of doctor `d1` on patient `p1`. -/
def cxPending : AccessRequest := { cxGrant with
  id := "r2"
  status := Status.pending
  accessLevel := "read"
  expiresAt := none
  respondedAt := none }

/-- Patient document for `p1`. -/
def cxPatient : Patient := {
  id := "p1"
  activeCollaborators := 0
  totalRecords := 0
  totalVersions := 0 }

/-- Small database holding the pending request and its patient. -/
def cxDb : AccessDB := {
  requests := [cxPending]
  patients := [cxPatient]
  doctors := [] }

/-- C4: approving a pending request with `expiryDays >= 1` stamps an
expiry instant strictly later than the approval time; the sweep turns
every approved request whose expiry instant has passed (and, as in every
reachable state, whose `isExpired` flag is still false) into `expired`,
leaves every other request untouched, and is idempotent: a second sweep
at the same instant changes nothing. -/
theorem c4_expiry_and_sweep (db : AccessDB) (patientId requestId : String)
    (note : Option String) (now : Int) (todayKey : String)
    (reqs : List AccessRequest) (request : AccessRequest)
    (hfind : db.requests.find? (fun r => r.id == requestId) = some request)
    (hdays : 1 ≤ request.expiryDays)
    (hflag : ∀ r ∈ reqs, r.status = Status.approved → r.isExpired = false) :
    (request.patientId = patientId → request.status = Status.pending →
      ∀ r' ∈ (respondToAccessRequest db patientId requestId true note now todayKey).1.requests,
        r'.id = requestId → ∃ t, r'.expiresAt = some t ∧ now < t) ∧
    (∀ r ∈ reqs, ∀ t : Int, r.status = Status.approved → r.expiresAt = some t →
      t ≤ now →
      { r with status := Status.expired, isExpired := true } ∈
        expireStaleAccessRequests reqs now) ∧
    (∀ r ∈ reqs, staleQuery now r = false → r ∈ expireStaleAccessRequests reqs now) ∧
    (expireStaleAccessRequests (expireStaleAccessRequests reqs now) now =
      expireStaleAccessRequests reqs now) := by
  refine ⟨?_, ?_, ?_, ?_⟩
  · intro hpat hstat r' hr' hid
    have hpbeq : (request.patientId != patientId) = false := by
      simp [hpat]
    have hsbeq : (request.status != Status.pending) = false := by
      simp [hstat]
    simp only [respondToAccessRequest, hfind, hpbeq, hsbeq] at hr'
    simp at hr'
    obtain ⟨r0, hr0mem, hr0eq⟩ := hr'
    by_cases hr0id : r0.id = requestId
    · rw [if_pos hr0id] at hr0eq
      refine ⟨now + request.expiryDays * 86400000, ?_, by omega⟩
      rw [← hr0eq]
    · rw [if_neg hr0id] at hr0eq
      subst hr0eq
      exact absurd hid hr0id
  · intro r hmem t hstat hexp hle
    have hq : staleQuery now r = true := by
      simp [staleQuery, hstat, hexp, hle, hflag r hmem hstat]
    exact List.mem_map.mpr ⟨r, hmem, by simp [hq]⟩
  · intro r hmem hq
    exact List.mem_map.mpr ⟨r, hmem, by simp [hq]⟩
  · simp only [expireStaleAccessRequests, List.map_map]
    apply List.map_congr_left
    intro r _
    by_cases hq : staleQuery now r = true
    · have hq2 : staleQuery now { r with status := Status.expired, isExpired := true } = false := by
        simp [staleQuery]
      simp [Function.comp, hq, hq2]
    · have hqf : staleQuery now r = false := by simpa using hq
      simp [Function.comp, hqf]

/-- Closed instance of `c4_expiry_and_sweep`: sweeping the concrete
grant `cxGrant` (expiry instant 100) at instant 200 yields the expired
copy of the grant. -/
theorem c4_expiry_and_sweep_witness :
    { cxGrant with status := Status.expired, isExpired := true } ∈
      expireStaleAccessRequests [cxGrant] 200 :=
  ((c4_expiry_and_sweep cxDb "p1" "r2" none 200 "2026-01-01" [cxGrant] cxPending
      (by decide) (by decide) (by decide)).2.1) cxGrant
    (List.mem_singleton.mpr rfl) 100 (by decide) (by decide) (by decide)

/-- C5: revoking fails with an AuthorizationError when the caller is not
the request's target patient and with a StateError when the request is
not approved; on success the request becomes `revoked` with its
`isExpired` flag set, the patient's active-collaborator counter is
decremented, and, under the pair-uniqueness invariant, every subsequent
access check for the (doctor, patient) pair is denied for every record
type and mode — before any sweep runs. -/
theorem c5_revoke_immediate (db : AccessDB) (patientId requestId : String)
    (now : Int) (request : AccessRequest)
    (hfind : db.requests.find? (fun r => r.id == requestId) = some request)
    (huniq : pairUnique db.requests) :
    (request.patientId ≠ patientId →
      revokeAccess db patientId requestId now =
        (db, Except.error ApiError.authorizationError)) ∧
    (request.patientId = patientId → request.status ≠ Status.approved →
      revokeAccess db patientId requestId now =
        (db, Except.error ApiError.stateError)) ∧
    (request.patientId = patientId → request.status = Status.approved →
      (∀ r' ∈ (revokeAccess db patientId requestId now).1.requests,
        r'.id = requestId → r'.status = Status.revoked ∧ r'.isExpired = true) ∧
      ((revokeAccess db patientId requestId now).1.patients =
        db.patients.map fun p =>
          if p.id == patientId then
            { p with activeCollaborators := p.activeCollaborators - 1 }
          else p) ∧
      (∀ recordType : String, ∀ mode : AccessMode,
        isAuthorized (revokeAccess db patientId requestId now).1.requests
          request.doctorId patientId recordType mode =
            Except.error ApiError.authorizationError)) := by
  have hreqid : request.id = requestId := by
    simpa using List.find?_some hfind
  refine ⟨?_, ?_, ?_⟩
  · intro hpat
    have hpbeq : (request.patientId != patientId) = true := by
      simp [hpat]
    simp [revokeAccess, hfind, hpbeq]
  · intro hpat hstat
    have hpbeq : (request.patientId != patientId) = false := by
      simp [hpat]
    have hsbeq : (request.status != Status.approved) = true := by
      simp [hstat]
    simp [revokeAccess, hfind, hpbeq, hsbeq]
  · intro hpat hstat
    have hpbeq : (request.patientId != patientId) = false := by
      simp [hpat]
    have hsbeq : (request.status != Status.approved) = false := by
      simp [hstat]
    have hreqs : (revokeAccess db patientId requestId now).1.requests =
        db.requests.map fun r =>
          if r.id == requestId then
            { r with status := Status.revoked, revokedAt := some now,
                     isExpired := true }
          else r := by
      simp [revokeAccess, hfind, hpbeq, hsbeq]
    have hnone : ∀ r' ∈ (revokeAccess db patientId requestId now).1.requests,
        r'.doctorId = request.doctorId → r'.patientId = patientId →
          r'.status ≠ Status.approved := by
      rw [hreqs]
      intro r' hr' hdoc hpat2
      simp only [List.mem_map] at hr'
      obtain ⟨r0, hr0mem, hr0eq⟩ := hr'
      by_cases hr0id : (r0.id == requestId) = true
      · rw [if_pos hr0id] at hr0eq
        rw [← hr0eq]
        simp
      · rw [if_neg (by simpa using hr0id)] at hr0eq
        subst hr0eq
        intro hr0stat
        have hractive : activeForPair request.doctorId patientId r0 = true :=
          activeForPair_of_fields hdoc hpat2 hr0stat
        have hqactive : activeForPair request.doctorId patientId request = true :=
          activeForPair_of_fields rfl hpat hstat
        have : r0 = request :=
          countP_le_one_unique (huniq request.doctorId patientId) hr0mem
            (List.mem_of_find?_eq_some hfind) hractive hqactive
        subst this
        exact absurd (beq_iff_eq.mpr hreqid) (by simpa using hr0id)
    refine ⟨?_, ?_, ?_⟩
    · rw [hreqs]
      intro r' hr' hid
      simp only [List.mem_map] at hr'
      obtain ⟨r0, hr0mem, hr0eq⟩ := hr'
      by_cases hr0id : (r0.id == requestId) = true
      · rw [if_pos hr0id] at hr0eq
        rw [← hr0eq]
        exact ⟨rfl, rfl⟩
      · rw [if_neg (by simpa using hr0id)] at hr0eq
        subst hr0eq
        exact absurd (beq_iff_eq.mpr hid) (by simpa using hr0id)
    · simp [revokeAccess, hfind, hpbeq, hsbeq]
    · intro recordType mode
      have hfnone1 : (revokeAccess db patientId requestId now).1.requests.find?
          (matchesReadQuery request.doctorId patientId) = none := by
        rw [List.find?_eq_none]
        intro r' hr'
        intro hq
        have hq2 := (matchesReadQuery_iff _ _ _).mp hq
        exact hnone r' hr' hq2.1 hq2.2.1 hq2.2.2.1
      have hfnone2 : (revokeAccess db patientId requestId now).1.requests.find?
          (matchesWriteQuery request.doctorId patientId) = none := by
        rw [List.find?_eq_none]
        intro r' hr'
        intro hq
        have hq2 := (matchesWriteQuery_iff _ _ _).mp hq
        exact hnone r' hr' hq2.1 hq2.2.1 hq2.2.2.1
      cases mode
      case read =>
        simp [isAuthorized, assertDoctorReadAccess, hfnone1]
      case write =>
        simp [isAuthorized, assertDoctorWriteAccess, hfnone2]

/-- Small database holding the approved grant `cxGrant` and its patient. -/
def cxDbApproved : AccessDB := {
  requests := [cxGrant]
  patients := [cxPatient]
  doctors := [] }

/-- Closed instance of `c5_revoke_immediate`: after revoking the
concrete approved grant `cxGrant`, a read check on `lab_report` for the
pair is denied. -/
theorem c5_revoke_immediate_witness :
    isAuthorized (revokeAccess cxDbApproved "p1" "r1" 0).1.requests
      "d1" "p1" "lab_report" AccessMode.read =
        Except.error ApiError.authorizationError :=
  (((c5_revoke_immediate cxDbApproved "p1" "r1" 0 cxGrant (by decide)
      (pairUnique_singleton cxGrant)).2.2 (by decide) (by decide)).2.2)
    "lab_report" AccessMode.read

/-- C8: responding to an access request fails with a NotFoundError for an
unknown request id, with an AuthorizationError when the responder is not
the target patient, and with a StateError when the request is not
pending, each failure leaving the database unchanged; a deny updates only
the request document (status `denied`, response timestamp, note),
touching neither the doctors' statistics nor the patients' collaborator
counters. -/
theorem c8_respond_errors_and_deny (db : AccessDB) (patientId requestId : String)
    (approved : Bool) (note : Option String) (now : Int) (todayKey : String) :
    (db.requests.find? (fun r => r.id == requestId) = none →
      respondToAccessRequest db patientId requestId approved note now todayKey =
        (db, Except.error ApiError.notFoundError)) ∧
    (∀ request, db.requests.find? (fun r => r.id == requestId) = some request →
      request.patientId ≠ patientId →
      respondToAccessRequest db patientId requestId approved note now todayKey =
        (db, Except.error ApiError.authorizationError)) ∧
    (∀ request, db.requests.find? (fun r => r.id == requestId) = some request →
      request.patientId = patientId → request.status ≠ Status.pending →
      respondToAccessRequest db patientId requestId approved note now todayKey =
        (db, Except.error ApiError.stateError)) ∧
    (∀ request, db.requests.find? (fun r => r.id == requestId) = some request →
      request.patientId = patientId → request.status = Status.pending →
      respondToAccessRequest db patientId requestId false note now todayKey =
        ({ db with requests := db.requests.map fun r =>
            if r.id == requestId then
              { r with status := Status.denied, respondedAt := some now,
                       note := jsOrNull note }
            else r }, Except.ok ())) := by
  refine ⟨?_, ?_, ?_, ?_⟩
  · intro hfind
    simp [respondToAccessRequest, hfind]
  · intro request hfind hpat
    have hpbeq : (request.patientId != patientId) = true := by simp [hpat]
    simp [respondToAccessRequest, hfind, hpbeq]
  · intro request hfind hpat hstat
    have hpbeq : (request.patientId != patientId) = false := by simp [hpat]
    have hsbeq : (request.status != Status.pending) = true := by simp [hstat]
    simp [respondToAccessRequest, hfind, hpbeq, hsbeq]
  · intro request hfind hpat hstat
    have hpbeq : (request.patientId != patientId) = false := by simp [hpat]
    have hsbeq : (request.status != Status.pending) = false := by simp [hstat]
    simp [respondToAccessRequest, hfind, hpbeq, hsbeq]

/-- Closed instance of `c8_respond_errors_and_deny`: denying the concrete
pending request `cxPending` flips it to `denied` and leaves the patient
and doctor collections untouched. -/
theorem c8_respond_errors_and_deny_witness :
    respondToAccessRequest cxDb "p1" "r2" false none 5 "2026-01-01" =
      ({ cxDb with requests := cxDb.requests.map fun r =>
          if r.id == "r2" then
            { r with status := Status.denied, respondedAt := some 5,
                     note := jsOrNull none }
          else r }, Except.ok ()) :=
  (c8_respond_errors_and_deny cxDb "p1" "r2" false none 5 "2026-01-01").2.2.2
    cxPending (by decide) (by decide) (by decide)

/-- Mapping a function that never turns an inactive request into an
active one preserves the pair-uniqueness invariant. -/
lemma pairUnique_map {l : List AccessRequest} {g : AccessRequest → AccessRequest}
    (h : ∀ d p : String, ∀ r ∈ l,
      activeForPair d p (g r) = true → activeForPair d p r = true)
    (hu : pairUnique l) : pairUnique (l.map g) :=
  fun d p => le_trans (countP_map_le_of_imp (h d p)) (hu d p)

/-- Appending a request for a pair that currently has no live request
preserves the pair-uniqueness invariant. -/
lemma pairUnique_append_new (l : List AccessRequest) (req : AccessRequest)
    (hu : pairUnique l)
    (hzero : l.countP (activeForPair req.doctorId req.patientId) = 0) :
    pairUnique (l ++ [req]) := by
  intro d p
  rw [List.countP_append, List.countP_singleton]
  by_cases hnew : activeForPair d p req = true
  · have hnew' := hnew
    simp only [activeForPair, Bool.and_eq_true, beq_iff_eq] at hnew'
    obtain ⟨⟨hd, hp⟩, -⟩ := hnew'
    subst hd
    subst hp
    rw [if_pos hnew, hzero]
  · rw [if_neg hnew]
    have := hu d p
    omega

/-- C2: at most one pending/approved request may exist per
(doctor, patient) pair.  Creating a request for a patient that exists
fails with a ConflictError, leaving the database unchanged, whenever a
pending or approved request for the pair already exists; and each of the
four request-mutating operations (create, respond, revoke, sweep)
preserves the invariant. -/
theorem c2_pair_unique_invariant (db : AccessDB)
    (requestId doctorId patientId reason : String)
    (accessLevel : Option String) (requestedRecordTypes : List String)
    (expiryDays : Option Int)
    (patientId2 requestId2 : String) (approved : Bool) (note : Option String)
    (patientId3 requestId3 : String)
    (now : Int) (todayKey : String)
    (huniq : pairUnique db.requests)
    (hids : (db.requests.map fun r => r.id).Nodup) :
    (db.patients.any (fun p => p.id == patientId) = true →
      db.requests.any (activeForPair doctorId patientId) = true →
      createAccessRequest db requestId doctorId patientId reason accessLevel
          requestedRecordTypes expiryDays now =
        (db, Except.error ApiError.conflictError)) ∧
    pairUnique (createAccessRequest db requestId doctorId patientId reason
      accessLevel requestedRecordTypes expiryDays now).1.requests ∧
    pairUnique (respondToAccessRequest db patientId2 requestId2 approved note
      now todayKey).1.requests ∧
    pairUnique (revokeAccess db patientId3 requestId3 now).1.requests ∧
    pairUnique (expireStaleAccessRequests db.requests now) := by
  refine ⟨?_, ?_, ?_, ?_, ?_⟩
  · intro hpat hany
    simp [createAccessRequest, hpat, hany]
  · by_cases hpat : (db.patients.any fun p => p.id == patientId) = true
    · by_cases hany : (db.requests.any (activeForPair doctorId patientId)) = true
      · simpa [createAccessRequest, hpat, hany] using huniq
      · have hanyf : (db.requests.any (activeForPair doctorId patientId)) = false := by
          simpa using hany
        have hzero : db.requests.countP (activeForPair doctorId patientId) = 0 := by
          rw [List.countP_eq_zero]
          intro r hr hactive
          rw [List.any_eq_false] at hanyf
          exact hanyf r hr hactive
        simp only [createAccessRequest, hpat, hanyf, Bool.not_true,
          Bool.false_eq_true, if_false, Bool.not_false, if_true]
        exact pairUnique_append_new db.requests _ huniq hzero
    · have hpatf : (db.patients.any fun p => p.id == patientId) = false := by
        simpa using hpat
      simpa [createAccessRequest, hpatf] using huniq
  · cases hfind : db.requests.find? (fun r => r.id == requestId2) with
    | none => simpa [respondToAccessRequest, hfind] using huniq
    | some request =>
        have hreqid : request.id = requestId2 := by
          simpa using List.find?_some hfind
        have hreqmem := List.mem_of_find?_eq_some hfind
        by_cases hp : (request.patientId != patientId2) = true
        · simpa [respondToAccessRequest, hfind, hp] using huniq
        · have hpf : (request.patientId != patientId2) = false := by simpa using hp
          by_cases hs : (request.status != Status.pending) = true
          · simpa [respondToAccessRequest, hfind, hpf, hs] using huniq
          · have hsf : (request.status != Status.pending) = false := by simpa using hs
            have hpend : request.status = Status.pending := by
              simpa using hsf
            simp only [respondToAccessRequest, hfind, hpf, hsf,
              Bool.false_eq_true, if_false]
            apply pairUnique_map ?_ huniq
            intro d p r hr hact
            by_cases hid : (r.id == requestId2) = true
            · have hrq : r = request :=
                List.inj_on_of_nodup_map hids hr hreqmem
                  (by rw [hreqid]; simpa using hid)
              subst hrq
              cases happ : approved
              · rw [happ] at hact
                simp [activeForPair, hid] at hact
              · rw [happ] at hact
                simp only [hid, if_true, if_pos] at hact
                simp only [activeForPair, Bool.and_eq_true, beq_iff_eq,
                  Bool.or_eq_true] at hact ⊢
                obtain ⟨⟨hd, hp2⟩, -⟩ := hact
                exact ⟨⟨hd, hp2⟩, Or.inl hpend⟩
            · have hidf : (r.id == requestId2) = false := by simpa using hid
              simp only [hidf, Bool.false_eq_true, if_false] at hact
              exact hact
  · cases hfind : db.requests.find? (fun r => r.id == requestId3) with
    | none => simpa [revokeAccess, hfind] using huniq
    | some request =>
        by_cases hp : (request.patientId != patientId3) = true
        · simpa [revokeAccess, hfind, hp] using huniq
        · have hpf : (request.patientId != patientId3) = false := by simpa using hp
          by_cases hs : (request.status != Status.approved) = true
          · simpa [revokeAccess, hfind, hpf, hs] using huniq
          · have hsf : (request.status != Status.approved) = false := by simpa using hs
            have hres : (revokeAccess db patientId3 requestId3 now).1.requests =
                db.requests.map fun r =>
                  if r.id == requestId3 then
                    { r with status := Status.revoked, revokedAt := some now,
                             isExpired := true }
                  else r := by
              simp [revokeAccess, hfind, hpf, hsf]
            rw [hres]
            apply pairUnique_map ?_ huniq
            intro d p r hr hact
            by_cases hid : (r.id == requestId3) = true
            · rw [if_pos hid] at hact
              simp [activeForPair] at hact
            · rw [if_neg (by simpa using hid)] at hact
              exact hact
  · apply pairUnique_map ?_ huniq
    intro d p r _ hact
    by_cases hq : staleQuery now r = true
    · rw [if_pos hq] at hact
      simp [activeForPair] at hact
    · rw [if_neg hq] at hact
      exact hact

/-- Closed instance of `c2_pair_unique_invariant`: creating a second
request by doctor `d1` for patient `p1` while the approved grant
`cxGrant` exists is rejected with a ConflictError and the database is
unchanged. -/
theorem c2_pair_unique_invariant_witness :
    createAccessRequest cxDbApproved "r9" "d1" "p1" "checkup" none
        ["lab_report"] none 7 =
      (cxDbApproved, Except.error ApiError.conflictError) :=
  (c2_pair_unique_invariant cxDbApproved "r9" "d1" "p1" "checkup" none
      ["lab_report"] none "p1" "r1" true none "p1" "r1" 7 "2026-01-01"
      (pairUnique_singleton cxGrant) (by decide)).1 (by decide) (by decide)

/-- Zeroed statistics block of a freshly registered doctor. -/
def cxStats0 : DoctorStats := {
  totalCasesHandled := 0
  activeCases := 0
  totalRecordsUpdated := 0
  averageResponseTimeHours := none
  recordAccuracyScore := none
  lastActiveAt := none }

/-- Freshly registered verified doctor with zeroed statistics. -/
def cxDoctor : Doctor := {
  id := "dz"
  displayName := "Dr Zero"
  specialization := "gp"
  licenseNumber := "LIC-1"
  phone := "5550100"
  isVerified := true
  conditionTags := []
  endorsementCounts := []
  contributionGraph := []
  stats := cxStats0 }

/-- C9 (counterexample): completing a case for a doctor with zero active
cases drives `activeCases` to -1 — there is no floor at 0 — and the
per-day activity counter for the processing day is incremented, contrary
to the claim that no other statistic changes. -/
theorem c9_case_completed_counterexample :
    (applyDoctorStats cxDoctor { caseCompleted := true } 5
        "2026-01-01").stats.activeCases = -1 ∧
    lookupEntry (applyDoctorStats cxDoctor { caseCompleted := true } 5
        "2026-01-01").contributionGraph "2026-01-01" = 1 := by
  constructor
  · rfl
  · rfl

/-- C9 (amended): the case-completed update decrements `activeCases` by
exactly 1 with no lower bound, leaves the cumulative counters, the
rolling average and the accuracy score unchanged, but additionally
increments today's per-day activity counter (and refreshes the
last-active timestamp). -/
theorem c9_case_completed (d : Doctor) (now : Int) (todayKey : String) :
    ((applyDoctorStats d { caseCompleted := true } now todayKey).stats.activeCases =
      d.stats.activeCases - 1) ∧
    ((applyDoctorStats d { caseCompleted := true } now todayKey).stats.totalCasesHandled =
      d.stats.totalCasesHandled) ∧
    ((applyDoctorStats d { caseCompleted := true } now todayKey).stats.totalRecordsUpdated =
      d.stats.totalRecordsUpdated) ∧
    ((applyDoctorStats d { caseCompleted := true } now todayKey).stats.averageResponseTimeHours =
      d.stats.averageResponseTimeHours) ∧
    ((applyDoctorStats d { caseCompleted := true } now todayKey).stats.recordAccuracyScore =
      d.stats.recordAccuracyScore) ∧
    ((applyDoctorStats d { caseCompleted := true } now todayKey).contributionGraph =
      incrEntry d.contributionGraph todayKey 1) ∧
    ((applyDoctorStats d { caseCompleted := true } now todayKey).endorsementCounts =
      d.endorsementCounts) ∧
    ((applyDoctorStats d { caseCompleted := true } now todayKey).conditionTags =
      d.conditionTags) :=
  ⟨rfl, rfl, rfl, rfl, rfl, rfl, rfl, rfl⟩

/-- Rolling-average update of a call that records only a response time:
with a non-zero stored case count the divisor is that stored count. -/
lemma applyDoctorStats_response_avg (d : Doctor) (rt : ℚ) (now : Int) (k : String)
    (hnz : ¬d.stats.totalCasesHandled = 0) :
    (applyDoctorStats d { responseTimeHours := some rt } now k).stats.averageResponseTimeHours =
      match d.stats.averageResponseTimeHours with
      | none => some rt
      | some a => some (round2 ((a * ((d.stats.totalCasesHandled : ℚ) - 1) + rt) /
          (d.stats.totalCasesHandled : ℚ))) := by
  simp only [applyDoctorStats]
  rw [if_neg hnz]
  cases havg : d.stats.averageResponseTimeHours <;> rfl

/-- C6: when a new-case update (which increments the case count) is
followed by a response-time recording, a doctor with no prior average
gets the sample itself, and otherwise the new average is
`(priorAverage * (totalCasesHandled - 1) + responseTimeHours) /
totalCasesHandled` rounded to 2 decimal places, where the divisor is the
case count after the new-case increment. -/
theorem c6_rolling_average (d : Doctor) (rt : ℚ) (now1 now2 : Int)
    (k1 k2 : String) (hpos : 0 ≤ d.stats.totalCasesHandled) :
    ((applyDoctorStats d { newCase := true } now1 k1).stats.totalCasesHandled =
      d.stats.totalCasesHandled + 1) ∧
    (d.stats.averageResponseTimeHours = none →
      (applyDoctorStats (applyDoctorStats d { newCase := true } now1 k1)
        { responseTimeHours := some rt } now2 k2).stats.averageResponseTimeHours =
          some rt) ∧
    (∀ a : ℚ, d.stats.averageResponseTimeHours = some a →
      (applyDoctorStats (applyDoctorStats d { newCase := true } now1 k1)
        { responseTimeHours := some rt } now2 k2).stats.averageResponseTimeHours =
          some (round2 ((a * (((d.stats.totalCasesHandled : ℚ) + 1) - 1) + rt) /
            ((d.stats.totalCasesHandled : ℚ) + 1)))) := by
  have h1 : (applyDoctorStats d { newCase := true } now1 k1).stats.totalCasesHandled =
      d.stats.totalCasesHandled + 1 := rfl
  have h2 : (applyDoctorStats d { newCase := true } now1 k1).stats.averageResponseTimeHours =
      d.stats.averageResponseTimeHours := rfl
  have hnz : ¬(applyDoctorStats d { newCase := true } now1 k1).stats.totalCasesHandled = 0 := by
    rw [h1]
    omega
  refine ⟨h1, ?_, ?_⟩
  · intro hnone
    rw [applyDoctorStats_response_avg _ rt now2 k2 hnz, h2, hnone]
  · intro a ha
    rw [applyDoctorStats_response_avg _ rt now2 k2 hnz, h2, ha, h1]
    push_cast
    ring_nf

/-- First intermediate state of the two-approval scenario: one new case
approved, response time 10h recorded. -/
def cxAfterFirst : Doctor :=
  applyDoctorStats (applyDoctorStats cxDoctor { newCase := true } 1 "2026-01-01")
    { responseTimeHours := some 10 } 2 "2026-01-01"

/-- Closed instance of `c6_rolling_average`: after a first approval with
response time 10h, a second approval with response time 20h yields the
rolling average 15h. -/
theorem c6_rolling_average_witness :
    (applyDoctorStats (applyDoctorStats cxAfterFirst { newCase := true } 3 "2026-01-02")
      { responseTimeHours := some 20 } 4 "2026-01-02").stats.averageResponseTimeHours =
        some 15 := by
  have h := (c6_rolling_average cxAfterFirst 20 3 4 "2026-01-02" "2026-01-02"
      (by decide)).2.2 10 (by decide)
  rw [h]
  have hc : cxAfterFirst.stats.totalCasesHandled = 1 := rfl
  rw [hc]
  norm_num [round2, jsRound]

/-- Endorsement of doctor `dz` by doctor `e1` for the skill surgery. -/
def cxEndorsement : Endorsement := {
  id := "en1"
  endorserId := "e1"
  endorserName := "Dr E"
  targetDoctorId := "dz"
  skill := "surgery"
  note := none
  createdAt := 9 }

/-- C7 (counterexample): endorsing the doctor `cxDoctor`, whose
`totalCasesHandled` is 0, succeeds, and the endorsement-created trigger
then sets the accuracy score to 100 instead of skipping the recomputation
and leaving it null: the trigger substitutes 1 for the zero case count
(`totalCasesHandled || 1`) and always writes a score. -/
theorem c7_accuracy_score_counterexample :
    (endorseDoctor [cxDoctor] [] "e1" "Dr E" "dz" "surgery" none "en1" 9).2 =
      Except.ok cxEndorsement ∧
    cxDoctor.stats.totalCasesHandled = 0 ∧
    (onEndorsementCreated
        (endorseDoctor [cxDoctor] [] "e1" "Dr E" "dz" "surgery" none "en1" 9).1.1
        cxEndorsement).map (fun d => d.stats.recordAccuracyScore) =
      [some 100] := by
  refine ⟨rfl, rfl, ?_⟩
  simp only [endorseDoctor, onEndorsementCreated, List.map]
  norm_num [cxDoctor, cxEndorsement, cxStats0, incrEntry, sumEndorsements, jsRound]

/-- C7 (amended): a successful endorsement increments the target
doctor's `endorsementCounts` entry for the endorsed skill by 1 and leaves
the other skills unchanged; the endorsement-created trigger recomputes
the accuracy score as
`min(100, round((sum of endorsement counts / max(1, totalCasesHandled)) * 50 + 50))`
and writes it even when `totalCasesHandled` is 0 (the `|| 1` default
substitutes divisor 1); only the standalone service recompute
(`recalculateDoctorAccuracyScore`) returns early at a zero case count and
leaves the stored score untouched. -/
theorem c7_endorsement_and_score (doctors : List Doctor)
    (endorsements : List Endorsement)
    (endorserId endorserName targetDoctorId skill : String)
    (note : Option String) (endorsementId : String) (now : Int)
    (e : Endorsement) (d0 : Doctor) :
    (∀ e0, (endorseDoctor doctors endorsements endorserId endorserName
        targetDoctorId skill note endorsementId now).2 = Except.ok e0 →
      ∀ d ∈ doctors, d.id = targetDoctorId →
        ∃ d' ∈ (endorseDoctor doctors endorsements endorserId endorserName
            targetDoctorId skill note endorsementId now).1.1,
          d'.id = d.id ∧
          lookupEntry d'.endorsementCounts skill =
            lookupEntry d.endorsementCounts skill + 1 ∧
          ∀ s2 : String, skill ≠ s2 →
            lookupEntry d'.endorsementCounts s2 =
              lookupEntry d.endorsementCounts s2) ∧
    (∀ d ∈ doctors, d.id = e.targetDoctorId →
      0 ≤ d.stats.totalCasesHandled →
      ∃ d' ∈ onEndorsementCreated doctors e,
        d'.id = d.id ∧
        d'.stats.recordAccuracyScore =
          some (min 100 (jsRound ((sumEndorsements d.endorsementCounts : ℚ) /
            ((max 1 d.stats.totalCasesHandled : Int) : ℚ) * 50 + 50)))) ∧
    (d0.stats.totalCasesHandled = 0 → recalcScore d0 = d0) := by
  refine ⟨?_, ?_, ?_⟩
  · intro e0 hok d hd hid
    by_cases h1 : (endorserId == targetDoctorId) = true
    · simp [endorseDoctor, h1] at hok
    · have h1f : (endorserId == targetDoctorId) = false := by simpa using h1
      cases hfind : doctors.find? (fun d2 => d2.id == targetDoctorId) with
      | none => simp [endorseDoctor, h1f, hfind] at hok
      | some target =>
          by_cases h2 : target.isVerified = true
          · by_cases h3 : (endorsements.any fun e2 =>
                e2.endorserId == endorserId && e2.targetDoctorId == targetDoctorId &&
                  e2.skill == skill) = true
            · simp [endorseDoctor, h1f, hfind, h2, h3] at hok
            · have h3f : (endorsements.any fun e2 =>
                  e2.endorserId == endorserId &&
                    e2.targetDoctorId == targetDoctorId &&
                    e2.skill == skill) = false := by simpa using h3
              have hres : (endorseDoctor doctors endorsements endorserId
                  endorserName targetDoctorId skill note endorsementId now).1.1 =
                  doctors.map fun d2 =>
                    if d2.id == targetDoctorId then
                      { d2 with endorsementCounts :=
                          incrEntry d2.endorsementCounts skill 1 }
                    else d2 := by
                simp [endorseDoctor, h1f, hfind, h2, h3f]
              rw [hres]
              have hbeq : (d.id == targetDoctorId) = true := beq_iff_eq.mpr hid
              refine ⟨_, List.mem_map_of_mem _ hd, ?_⟩
              rw [if_pos hbeq]
              exact ⟨rfl, lookupEntry_incrEntry _ _ _,
                fun s2 hs2 => lookupEntry_incrEntry_ne _ _ _ _ hs2⟩
          · simp [endorseDoctor, h1f, hfind, h2] at hok
  · intro d hd hid hpos
    have hbeq : (d.id == e.targetDoctorId) = true := beq_iff_eq.mpr hid
    have hdiv : (if d.stats.totalCasesHandled = 0 then 1
        else d.stats.totalCasesHandled) = max 1 d.stats.totalCasesHandled := by
      split <;> omega
    refine ⟨_, List.mem_map_of_mem _ hd, ?_⟩
    rw [if_pos hbeq]
    refine ⟨rfl, ?_⟩
    rw [hdiv]
  · intro h0
    simp [recalcScore, h0]

/-- Doctor with 3 endorsements across two skills and 4 cases handled. -/
def cxDoctor34 : Doctor := { cxDoctor with
  id := "d34"
  endorsementCounts := [("surgery", 2), ("care", 1)]
  stats := { cxStats0 with totalCasesHandled := 4 } }

/-- Endorsement targeting `cxDoctor34`. -/
def cxEndorsement34 : Endorsement := { cxEndorsement with
  id := "en2"
  targetDoctorId := "d34" }

/-- Closed instance of `c7_endorsement_and_score`: with 3 endorsements
and 4 total cases the recomputed accuracy score is 88. -/
theorem c7_endorsement_and_score_witness :
    (onEndorsementCreated [cxDoctor34] cxEndorsement34).map
      (fun d => d.stats.recordAccuracyScore) = [some 88] := by
  obtain ⟨d', hmem, hid, hscore⟩ :=
    (c7_endorsement_and_score [cxDoctor34] [] "e1" "Dr E" "d34" "surgery" none
        "en2" 9 cxEndorsement34 cxDoctor34).2.1 cxDoctor34
      (List.mem_singleton.mpr rfl) (by decide) (by decide)
  have h1 := List.mem_singleton.mp hmem
  have hl : onEndorsementCreated [cxDoctor34] cxEndorsement34 = [d'] := by
    rw [h1]
    rfl
  rw [hl, List.map_singleton, hscore]
  have : sumEndorsements cxDoctor34.endorsementCounts = 3 := rfl
  rw [this]
  have h4 : max 1 cxDoctor34.stats.totalCasesHandled = 4 := rfl
  rw [h4]
  norm_num [jsRound]

/-- Doctor documents that agree outside the sensitive fields have the
same public projection. -/
lemma stripSensitive_congr {d1 d2 : Doctor} (h : agreeExceptSensitive d1 d2) :
    stripSensitive d1 = stripSensitive d2 := by
  obtain ⟨h1, h2, h3, h4, h5, h6, h7, h8⟩ := h
  simp [stripSensitive, h1, h2, h3, h4, h5, h6, h7, h8]

/-- The discovery query filter reads only non-sensitive fields, so it
cannot distinguish documents that agree outside them. -/
lemma discoverPred_congr (q : DiscoverQuery) {d1 d2 : Doctor}
    (h : agreeExceptSensitive d1 d2) :
    (d1.isVerified &&
      (match q.specialization with
       | none => true
       | some s => d1.specialization == s) &&
      (match q.conditionTag with
       | none => true
       | some t => d1.conditionTags.contains t)) =
    (d2.isVerified &&
      (match q.specialization with
       | none => true
       | some s => d2.specialization == s) &&
      (match q.conditionTag with
       | none => true
       | some t => d2.conditionTags.contains t)) := by
  obtain ⟨-, -, h3, h4, h5, -, -, -⟩ := h
  rw [h3, h4, h5]

/-- Filtering then stripping yields identical public lists on doctor
lists that agree pointwise outside the sensitive fields. -/
lemma discover_strip_congr (q : DiscoverQuery) :
    ∀ {l1 l2 : List Doctor}, List.Forall₂ agreeExceptSensitive l1 l2 →
      (l1.filter fun d =>
        d.isVerified &&
          (match q.specialization with
           | none => true
           | some s => d.specialization == s) &&
          (match q.conditionTag with
           | none => true
           | some t => d.conditionTags.contains t)).map stripSensitive =
      (l2.filter fun d =>
        d.isVerified &&
          (match q.specialization with
           | none => true
           | some s => d.specialization == s) &&
          (match q.conditionTag with
           | none => true
           | some t => d.conditionTags.contains t)).map stripSensitive := by
  intro l1 l2 hl
  induction hl with
  | nil => rfl
  | cons hab htl ih =>
      rename_i a b t1 t2
      rw [List.filter_cons, List.filter_cons, discoverPred_congr q hab]
      split
      · simp only [List.map_cons]
        rw [stripSensitive_congr hab, ih]
      · exact ih

/-- C10: the public discovery and profile read operations disclose
nothing about `licenseNumber` and `phone`: on any two doctor collections
that agree pointwise on every other field, `discoverDoctors` and
`getDoctorProfile` return identical payloads. -/
theorem c10_sensitive_fields_hidden (l1 l2 : List Doctor) (q : DiscoverQuery)
    (es : List Endorsement) (doctorId : String)
    (hl : List.Forall₂ agreeExceptSensitive l1 l2) :
    discoverDoctors l1 q = discoverDoctors l2 q ∧
    getDoctorProfile l1 es doctorId = getDoctorProfile l2 es doctorId := by
  constructor
  · simp only [discoverDoctors]
    rw [discover_strip_congr q hl]
  · induction hl with
    | nil => rfl
    | cons hab htl ih =>
        rename_i a b t1 t2
        have hid : (a.id == doctorId) = (b.id == doctorId) := by
          rw [hab.1]
        cases hc : (b.id == doctorId) with
        | true =>
            have hca : (a.id == doctorId) = true := by rw [hid, hc]
            have hfa : List.find? (fun d => d.id == doctorId) (a :: t1) = some a :=
              List.find?_cons_of_pos _ hca
            have hfb : List.find? (fun d => d.id == doctorId) (b :: t2) = some b :=
              List.find?_cons_of_pos _ hc
            simp only [getDoctorProfile, hfa, hfb]
            rw [stripSensitive_congr hab, hab.2.2.2.2.1, hab.2.2.2.2.2.2.1]
        | false =>
            have hca : (a.id == doctorId) = false := by rw [hid, hc]
            have hfa : List.find? (fun d => d.id == doctorId) (a :: t1) =
                List.find? (fun d => d.id == doctorId) t1 :=
              List.find?_cons_of_neg _ (by simp [hca])
            have hfb : List.find? (fun d => d.id == doctorId) (b :: t2) =
                List.find? (fun d => d.id == doctorId) t2 :=
              List.find?_cons_of_neg _ (by simp [hc])
            simp only [getDoctorProfile] at ih ⊢
            rw [hfa, hfb]
            exact ih

/-- Doctor document identical to `cxDoctor` except for the sensitive
license number and phone fields. -/
def cxDoctorAlt : Doctor := { cxDoctor with
  licenseNumber := "LIC-OTHER"
  phone := "5550999" }

/-- Closed instance of `c10_sensitive_fields_hidden`: the default
discovery listing and the profile payload are identical for `cxDoctor`
and its sensitive-field variant. -/
theorem c10_sensitive_fields_hidden_witness :
    discoverDoctors [cxDoctor] {} = discoverDoctors [cxDoctorAlt] {} ∧
    getDoctorProfile [cxDoctor] [] "dz" = getDoctorProfile [cxDoctorAlt] [] "dz" :=
  c10_sensitive_fields_hidden [cxDoctor] [cxDoctorAlt] {} [] "dz"
    (List.Forall₂.cons ⟨rfl, rfl, rfl, rfl, rfl, rfl, rfl, rfl⟩ List.Forall₂.nil)

/-- Version numbers of a record's chain, in insertion order. -/
def chainNumbers (versions : List RecordVersion) (recordId : String) : List Int :=
  (versions.filter fun v => v.recordId == recordId).map fun v => v.versionNumber

/-- Contiguous ascending sequence `[1, ..., n]` of version numbers. -/
def range1 (n : Nat) : List Int :=
  (List.range n).map fun i => (i : Int) + 1

/-- Chain invariant of the record store: every record's version chain is
exactly `1..currentVersion` in insertion order, `totalVersions` mirrors
`currentVersion`, every version belongs to an existing record, and the
record ids are distinct. -/
def recordsInv (db : RecordsDB) : Prop :=
  (∀ r ∈ db.records, 1 ≤ r.currentVersion ∧
    r.totalVersions = r.currentVersion ∧
    chainNumbers db.versions r.id = range1 r.currentVersion.toNat) ∧
  (∀ v ∈ db.versions, ∃ r ∈ db.records, r.id = v.recordId) ∧
  (db.records.map fun r => r.id).Nodup

/-- Chain numbers split over a concatenation of version lists. -/
lemma chainNumbers_append (vs1 vs2 : List RecordVersion) (rid : String) :
    chainNumbers (vs1 ++ vs2) rid = chainNumbers vs1 rid ++ chainNumbers vs2 rid := by
  simp [chainNumbers]

/-- Chain numbers of a singleton belonging to the chain. -/
lemma chainNumbers_singleton_eq (v : RecordVersion) (rid : String)
    (h : v.recordId = rid) : chainNumbers [v] rid = [v.versionNumber] := by
  simp [chainNumbers, h]

/-- Chain numbers of a singleton outside the chain. -/
lemma chainNumbers_singleton_ne (v : RecordVersion) (rid : String)
    (h : v.recordId ≠ rid) : chainNumbers [v] rid = [] := by
  simp [chainNumbers, beq_false_of_ne h]

/-- A version list with no member of the chain contributes no numbers. -/
lemma chainNumbers_eq_nil (vs : List RecordVersion) (rid : String)
    (h : ∀ v ∈ vs, v.recordId ≠ rid) : chainNumbers vs rid = [] := by
  have : vs.filter (fun v => v.recordId == rid) = [] := by
    rw [List.filter_eq_nil_iff]
    intro v hv
    simp [beq_false_of_ne (h v hv)]
  simp [chainNumbers, this]

/-- Unfolding of `range1` at a successor. -/
lemma range1_succ (m : Nat) : range1 (m + 1) = range1 m ++ [(m : Int) + 1] := by
  simp [range1, List.range_succ]

/-- Length of `range1`. -/
lemma range1_length (m : Nat) : (range1 m).length = m := by
  induction m with
  | zero => rfl
  | succ k ih =>
      rw [range1_succ, List.length_append, ih]
      rfl

/-- Uploading a record with a fresh id preserves the chain invariant. -/
lemma uploadRecord_preserves_inv (db : RecordsDB)
    (patientId recordId versionId commitId title recordType : String)
    (tags : List String) (commitMessage : String) (f : FileInfo) (now : Int)
    (hinv : recordsInv db)
    (hfresh : ∀ r ∈ db.records, r.id ≠ recordId) :
    recordsInv (uploadRecord db patientId recordId versionId commitId title
      recordType tags commitMessage (some f) now).1 := by
  obtain ⟨hrec, horph, hnodup⟩ := hinv
  have hchain_nil : chainNumbers db.versions recordId = [] := by
    apply chainNumbers_eq_nil
    intro v hv hvid
    obtain ⟨r, hrmem, hrid⟩ := horph v hv
    exact hfresh r hrmem (hrid.trans hvid)
  simp only [uploadRecord]
  refine ⟨?_, ?_, ?_⟩
  · intro r' hr'
    rcases List.mem_append.mp hr' with hold | hnew
    · obtain ⟨h1, h2, h3⟩ := hrec r' hold
      refine ⟨h1, h2, ?_⟩
      rw [chainNumbers_append, h3,
        chainNumbers_singleton_ne _ _ (fun h => hfresh r' hold h.symm),
        List.append_nil]
    · have hr'eq := List.mem_singleton.mp hnew
      subst hr'eq
      refine ⟨le_refl 1, rfl, ?_⟩
      show chainNumbers _ recordId = range1 (1 : Int).toNat
      rw [chainNumbers_append, hchain_nil, List.nil_append,
        chainNumbers_singleton_eq _ _ rfl]
      rfl
  · intro v hv
    rcases List.mem_append.mp hv with hold | hnew
    · obtain ⟨r, hrmem, hrid⟩ := horph v hold
      exact ⟨r, List.mem_append_left _ hrmem, hrid⟩
    · have hveq := List.mem_singleton.mp hnew
      subst hveq
      exact ⟨_, List.mem_append_right _ (List.mem_singleton.mpr rfl), rfl⟩
  · rw [List.map_append]
    rw [List.nodup_append]
    refine ⟨hnodup, List.nodup_singleton _, ?_⟩
    intro a ha hb
    obtain ⟨r, hrmem, hrid⟩ := List.mem_map.mp ha
    have : a = recordId := by simpa using hb
    exact hfresh r hrmem (by rw [hrid, this])

/-- Appending a version preserves the chain invariant, whatever the
outcome of the authorisation checks. -/
lemma addRecordVersion_preserves_inv (db : RecordsDB)
    (callerId callerRole recordId versionId commitId commitMessage : String)
    (f : FileInfo) (now : Int) (todayKey : String)
    (hinv : recordsInv db) :
    recordsInv (addRecordVersion db callerId callerRole recordId versionId
      commitId commitMessage (some f) now todayKey).1 := by
  obtain ⟨hrec, horph, hnodup⟩ := hinv
  cases hfind : db.records.find? (fun r => r.id == recordId) with
  | none =>
      simp only [addRecordVersion, hfind]
      exact ⟨hrec, horph, hnodup⟩
  | some record =>
      have hridbeq := List.find?_some hfind
      have hrid : record.id = recordId := by simpa using hridbeq
      have hrecmem := List.mem_of_find?_eq_some hfind
      by_cases hrole : (callerRole == "patient" && record.patientId != callerId) = true
      · simp only [addRecordVersion, hfind, hrole, if_true]
        exact ⟨hrec, horph, hnodup⟩
      · have hrolef : (callerRole == "patient" && record.patientId != callerId) = false := by
          simpa using hrole
        cases hacc : (if callerRole == "doctor" then
            assertDoctorWriteAccess db.requests callerId record.patientId
          else Except.ok ()) with
        | error e =>
            simp only [addRecordVersion, hfind, hrolef, hacc,
              Bool.false_eq_true, if_false]
            exact ⟨hrec, horph, hnodup⟩
        | ok u =>
            simp only [addRecordVersion, hfind, hrolef, hacc,
              Bool.false_eq_true, if_false]
            refine ⟨?_, ?_, ?_⟩
            · intro r' hr'
              simp only [List.mem_map] at hr'
              obtain ⟨r, hrmem, hgr⟩ := hr'
              by_cases hidr : (r.id == recordId) = true
              · have hr_eq : r = record :=
                  List.inj_on_of_nodup_map hnodup hrmem hrecmem
                    (by rw [(by simpa using hidr : r.id = recordId), hrid])
                subst hr_eq
                rw [if_pos hidr] at hgr
                subst hgr
                obtain ⟨h1, h2, h3⟩ := hrec r hrmem
                refine ⟨?_, ?_, ?_⟩
                · show 1 ≤ r.currentVersion + 1
                  omega
                · show r.totalVersions + 1 = r.currentVersion + 1
                  omega
                · show chainNumbers _ r.id = range1 (r.currentVersion + 1).toNat
                  rw [chainNumbers_append, chainNumbers_singleton_eq _ _ hrid.symm, h3]
                  have htn : (r.currentVersion + 1).toNat = r.currentVersion.toNat + 1 := by
                    omega
                  rw [htn, range1_succ]
                  have hcast : ((r.currentVersion.toNat : Int)) + 1 = r.currentVersion + 1 := by
                    omega
                  rw [hcast]
              · have hidrf : (r.id == recordId) = false := by simpa using hidr
                rw [if_neg (by simp [hidrf])] at hgr
                subst hgr
                obtain ⟨h1, h2, h3⟩ := hrec r hrmem
                refine ⟨h1, h2, ?_⟩
                rw [chainNumbers_append, h3,
                  chainNumbers_singleton_ne _ _
                    (fun h => (by simpa [hidrf] using congrArg (· == recordId) h :
                      False))]
                rw [List.append_nil]
            · intro v hv
              rcases List.mem_append.mp hv with hold | hnew
              · obtain ⟨r, hrmem, hrid2⟩ := horph v hold
                refine ⟨_, List.mem_map_of_mem _ hrmem, ?_⟩
                split <;> exact hrid2
              · have hveq := List.mem_singleton.mp hnew
                subst hveq
                refine ⟨_, List.mem_map_of_mem _ hrecmem, ?_⟩
                rw [if_pos hridbeq]
                exact hrid
            · have hgid : ∀ r ∈ db.records,
                  ((fun r2 => r2.id) ∘ fun r2 =>
                    if (r2.id == recordId) = true then
                      { r2 with currentVersion := record.currentVersion + 1,
                                currentVersionId := versionId,
                                totalVersions := r2.totalVersions + 1,
                                updatedAt := now }
                    else r2) r = r.id := by
                intro r _
                simp only [Function.comp]
                split <;> rfl
              rw [List.map_map, List.map_congr_left hgid]
              exact hnodup

/-- C3: version numbers form the contiguous sequence 1..N.  Uploading a
record (with a fresh id) creates the record at version 1 together with a
version numbered 1 of change type `initial_upload`, and preserves the
chain invariant; a successful version append returns the record's
current version + 1 and, in the same atomic batch, the updated record
(pointer, total and current version advanced) and the new `update`
version carrying that number; the chain invariant is preserved by the
append whatever the outcome, no record's current version decreases, and
under the invariant every record's current version equals the number of
versions in its chain. -/
theorem c3_version_chain (db : RecordsDB)
    (patientId recordId versionId commitId title recordType : String)
    (tags : List String) (commitMessage : String) (f : FileInfo) (now : Int)
    (callerId callerRole recordId2 versionId2 commitId2 commitMessage2 : String)
    (f2 : FileInfo) (now2 : Int) (todayKey : String)
    (record : MedRecord) (n : Int)
    (hinv : recordsInv db)
    (hfresh : ∀ r ∈ db.records, r.id ≠ recordId)
    (hfind : db.records.find? (fun r => r.id == recordId2) = some record) :
    (∃ v ∈ (uploadRecord db patientId recordId versionId commitId title
        recordType tags commitMessage (some f) now).1.versions,
      v.recordId = recordId ∧ v.versionNumber = 1 ∧
        v.changeType = "initial_upload") ∧
    (∃ r ∈ (uploadRecord db patientId recordId versionId commitId title
        recordType tags commitMessage (some f) now).1.records,
      r.id = recordId ∧ r.currentVersion = 1 ∧ r.totalVersions = 1 ∧
        r.currentVersionId = versionId) ∧
    recordsInv (uploadRecord db patientId recordId versionId commitId title
      recordType tags commitMessage (some f) now).1 ∧
    ((addRecordVersion db callerId callerRole recordId2 versionId2 commitId2
        commitMessage2 (some f2) now2 todayKey).2 = Except.ok n →
      n = record.currentVersion + 1 ∧
      (∃ r' ∈ (addRecordVersion db callerId callerRole recordId2 versionId2
          commitId2 commitMessage2 (some f2) now2 todayKey).1.records,
        r'.id = recordId2 ∧ r'.currentVersion = record.currentVersion + 1 ∧
          r'.totalVersions = record.totalVersions + 1 ∧
          r'.currentVersionId = versionId2) ∧
      (∃ v ∈ (addRecordVersion db callerId callerRole recordId2 versionId2
          commitId2 commitMessage2 (some f2) now2 todayKey).1.versions,
        v.id = versionId2 ∧ v.recordId = recordId2 ∧
          v.versionNumber = record.currentVersion + 1 ∧
          v.changeType = "update")) ∧
    recordsInv (addRecordVersion db callerId callerRole recordId2 versionId2
      commitId2 commitMessage2 (some f2) now2 todayKey).1 ∧
    (∀ r ∈ db.records, ∃ r' ∈ (addRecordVersion db callerId callerRole
        recordId2 versionId2 commitId2 commitMessage2 (some f2) now2
        todayKey).1.records,
      r'.id = r.id ∧ r.currentVersion ≤ r'.currentVersion) ∧
    (∀ r ∈ db.records,
      ((chainNumbers db.versions r.id).length : Int) = r.currentVersion) := by
  have hridbeq := List.find?_some hfind
  have hrid : record.id = recordId2 := by simpa using hridbeq
  have hrecmem := List.mem_of_find?_eq_some hfind
  obtain ⟨hrec, horph, hnodup⟩ := hinv
  refine ⟨?_, ?_, ?_, ?_, ?_, ?_, ?_⟩
  · simp only [uploadRecord]
    exact ⟨_, List.mem_append_right _ (List.mem_singleton.mpr rfl),
      rfl, rfl, rfl⟩
  · simp only [uploadRecord]
    exact ⟨_, List.mem_append_right _ (List.mem_singleton.mpr rfl),
      rfl, rfl, rfl, rfl⟩
  · exact uploadRecord_preserves_inv db patientId recordId versionId commitId
      title recordType tags commitMessage f now ⟨hrec, horph, hnodup⟩ hfresh
  · intro hok
    by_cases hrole : (callerRole == "patient" && record.patientId != callerId) = true
    · rw [show (addRecordVersion db callerId callerRole recordId2 versionId2
          commitId2 commitMessage2 (some f2) now2 todayKey).2 =
            Except.error ApiError.authorizationError by
        simp [addRecordVersion, hfind, hrole]] at hok
      cases hok
    · have hrolef : (callerRole == "patient" && record.patientId != callerId) = false := by
        simpa using hrole
      cases hacc : (if callerRole == "doctor" then
          assertDoctorWriteAccess db.requests callerId record.patientId
        else Except.ok ()) with
      | error e =>
          rw [show (addRecordVersion db callerId callerRole recordId2 versionId2
              commitId2 commitMessage2 (some f2) now2 todayKey).2 =
                Except.error e by
            simp only [addRecordVersion, hfind, hrolef, Bool.false_eq_true,
              if_false]
            rw [hacc]] at hok
          cases hok
      | ok u =>
          have hok2 : (Except.ok (record.currentVersion + 1) : Except ApiError Int) =
              Except.ok n := by
            rw [← hok]
            simp only [addRecordVersion, hfind, hrolef, Bool.false_eq_true,
              if_false]
            rw [hacc]
          have hn : n = record.currentVersion + 1 := by
            cases hok2
            rfl
          refine ⟨hn, ?_, ?_⟩
          · simp only [addRecordVersion, hfind, hrolef, hacc,
              Bool.false_eq_true, if_false]
            refine ⟨_, List.mem_map_of_mem _ hrecmem, ?_⟩
            rw [if_pos hridbeq]
            exact ⟨hrid, rfl, rfl, rfl⟩
          · simp only [addRecordVersion, hfind, hrolef, hacc,
              Bool.false_eq_true, if_false]
            exact ⟨_, List.mem_append_right _ (List.mem_singleton.mpr rfl),
              rfl, rfl, rfl, rfl⟩
  · exact addRecordVersion_preserves_inv db callerId callerRole recordId2
      versionId2 commitId2 commitMessage2 f2 now2 todayKey ⟨hrec, horph, hnodup⟩
  · intro r hr
    by_cases hrole : (callerRole == "patient" && record.patientId != callerId) = true
    · refine ⟨r, ?_, rfl, le_refl _⟩
      simp [addRecordVersion, hfind, hrole, hr]
    · have hrolef : (callerRole == "patient" && record.patientId != callerId) = false := by
        simpa using hrole
      cases hacc : (if callerRole == "doctor" then
          assertDoctorWriteAccess db.requests callerId record.patientId
        else Except.ok ()) with
      | error e =>
          refine ⟨r, ?_, rfl, le_refl _⟩
          simp only [addRecordVersion, hfind, hrolef, Bool.false_eq_true,
            if_false]
          rw [hacc]
          exact hr
      | ok u =>
          simp only [addRecordVersion, hfind, hrolef, hacc,
            Bool.false_eq_true, if_false]
          refine ⟨_, List.mem_map_of_mem _ hr, ?_⟩
          by_cases hidr : (r.id == recordId2) = true
          · have hr_eq : r = record :=
              List.inj_on_of_nodup_map hnodup hr hrecmem
                (by rw [(by simpa using hidr : r.id = recordId2), hrid])
            rw [if_pos hidr]
            subst hr_eq
            exact ⟨rfl, show r.currentVersion ≤ r.currentVersion + 1 by omega⟩
          · rw [if_neg (by simpa using hidr)]
            exact ⟨rfl, le_refl _⟩
  · intro r hr
    obtain ⟨h1, -, h3⟩ := hrec r hr
    rw [h3, range1_length]
    omega

/-- File metadata of a concrete upload. -/
def cxFile : FileInfo := {
  originalname := "scan.pdf"
  size := 100
  mimetype := "application/pdf" }

/-- Record at version 1 owned by patient `p1`. -/
def cxRecord : MedRecord := {
  id := "rec1"
  patientId := "p1"
  title := "Labs"
  recordType := "lab_report"
  tags := []
  currentVersion := 1
  currentVersionId := "v1"
  totalVersions := 1
  isArchived := false
  createdBy := "p1"
  createdAt := 0
  updatedAt := 0 }

/-- Initial version of `cxRecord`. -/
def cxVersion1 : RecordVersion := {
  id := "v1"
  recordId := "rec1"
  patientId := "p1"
  versionNumber := 1
  commitMessage := "init"
  committedBy := "p1"
  committedByRole := "patient"
  fileName := "scan.pdf"
  fileSize := 100
  mimeType := "application/pdf"
  changeType := "initial_upload"
  createdAt := 0 }

/-- Record store holding one record with its single version. -/
def cxRecordsDb : RecordsDB := {
  records := [cxRecord]
  versions := [cxVersion1]
  commits := []
  patients := [cxPatient]
  doctors := []
  requests := [] }

/-- Closed instance of `c3_version_chain`: appending to the concrete
one-version record `cxRecord` yields an updated record at version 2 with
total 2 and the new current-version pointer. -/
theorem c3_version_chain_witness :
    ∃ r' ∈ (addRecordVersion cxRecordsDb "p1" "patient" "rec1" "v2" "c2"
        "update labs" (some cxFile) 5 "2026-01-01").1.records,
      r'.id = "rec1" ∧ r'.currentVersion = cxRecord.currentVersion + 1 ∧
        r'.totalVersions = cxRecord.totalVersions + 1 ∧
        r'.currentVersionId = "v2" :=
  ((c3_version_chain cxRecordsDb "p1" "rec2" "v9" "c9" "T" "xray" [] "m" cxFile 0
      "p1" "patient" "rec1" "v2" "c2" "update labs" cxFile 5 "2026-01-01"
      cxRecord 2 (by unfold recordsInv; decide) (by decide)
      (by decide)).2.2.2.1 (by decide)).2.1

end Medihub
